import Mathlib

/-!
Shallow embedding of the image ingestion and derivative-generation pipeline
(`internal/imaging/{service,validator,rendition}.go`,
`internal/repositories/imaging_repository.go`, and the libvips-based
`Processor`).  Pure Go functions become Lean functions; the SQL tables become
lists of rows inside a `PipelineState`; calls into Go's `image` package,
`crypto/sha256` and libvips become oracle records, since those libraries are
outside the repository.  The worker pipeline (`Service.processJob`,
`Service.handleJobFailure`) becomes a state-transition function; the one racy
window the repository itself acknowledges (between the dedup lookup and the
asset insert) is exposed as an explicit interference parameter, instantiated
with the identity for sequential runs.
-/

namespace ImagePipeline

/-- The shared status enum of `service.go` (`StatusPending` .. `StatusFailed`). -/
inductive ProcessingStatus where
  | pending
  | downloading
  | processing
  | uploading
  | ready
  | failed
deriving DecidableEq, Repr

/-- `CropMode` from `rendition.go`. -/
inductive CropMode where
  | none
  | centerSquare
  | center16x9
  | fitWidth
deriving DecidableEq, Repr

/-- `QualityLevel` from `rendition.go`. -/
inductive QualityLevel where
  | high
  | medium
  | low
deriving DecidableEq, Repr

/-- `QualitySettings` from `rendition.go`. -/
structure QualitySettings where
  avif : Nat
  webp : Nat
  jpeg : Nat
deriving DecidableEq, Repr

/-- `QualityLevel.GetSettings` from `rendition.go`. -/
def QualityLevel.GetSettings : QualityLevel → QualitySettings
  | .high => { avif := 24, webp := 85, jpeg := 88 }
  | .medium => { avif := 30, webp := 78, jpeg := 82 }
  | .low => { avif := 36, webp := 70, jpeg := 75 }

/-- `RenditionConfig` from `rendition.go`. -/
structure RenditionConfig where
  name : String
  width : Nat
  height : Nat
  cropMode : CropMode
  quality : QualityLevel
  skipAVIF : Bool := false
deriving DecidableEq, Repr

/-- `GetRenditionsForCategory` from `rendition.go`: the ladder per category. -/
def GetRenditionsForCategory (category : String) : List RenditionConfig :=
  if category = "profile" then
    [ { name := "profile_48", width := 48, height := 48, cropMode := .centerSquare, quality := .high, skipAVIF := true },
      { name := "profile_96", width := 96, height := 96, cropMode := .centerSquare, quality := .high, skipAVIF := true },
      { name := "profile_200", width := 200, height := 200, cropMode := .centerSquare, quality := .high },
      { name := "profile_400", width := 400, height := 400, cropMode := .centerSquare, quality := .medium } ]
  else if category = "cover" then
    [ { name := "cover_320", width := 320, height := 180, cropMode := .center16x9, quality := .medium },
      { name := "cover_640", width := 640, height := 360, cropMode := .center16x9, quality := .medium },
      { name := "cover_960", width := 960, height := 540, cropMode := .center16x9, quality := .medium },
      { name := "cover_1200", width := 1200, height := 675, cropMode := .center16x9, quality := .medium },
      { name := "cover_1920", width := 1920, height := 1080, cropMode := .center16x9, quality := .medium } ]
  else if category = "gallery" then
    [ { name := "gallery_thumb", width := 150, height := 150, cropMode := .centerSquare, quality := .medium },
      { name := "gallery_320", width := 320, height := 0, cropMode := .fitWidth, quality := .medium },
      { name := "gallery_640", width := 640, height := 0, cropMode := .fitWidth, quality := .medium },
      { name := "gallery_960", width := 960, height := 0, cropMode := .fitWidth, quality := .medium },
      { name := "gallery_1200", width := 1200, height := 0, cropMode := .fitWidth, quality := .medium },
      { name := "gallery_1920", width := 1920, height := 0, cropMode := .fitWidth, quality := .medium } ]
  else
    [ { name := "general_320", width := 320, height := 0, cropMode := .fitWidth, quality := .medium },
      { name := "general_640", width := 640, height := 0, cropMode := .fitWidth, quality := .medium },
      { name := "general_960", width := 960, height := 0, cropMode := .fitWidth, quality := .medium },
      { name := "general_1200", width := 1200, height := 0, cropMode := .fitWidth, quality := .medium } ]

/-- `GetFormatsForRendition` from `rendition.go`.  Note the source literally
returns the identifier `"jpg"` (not `"jpeg"`) in the non-alpha case. -/
def GetFormatsForRendition (hasAlpha : Bool) (skipAVIF : Bool) : List String :=
  if hasAlpha then
    if skipAVIF then ["webp", "png"]
    else ["avif", "webp", "png"]
  else
    if skipAVIF then ["webp", "jpg"]
    else ["avif", "webp", "jpg"]

/-- `CategoryLimits` from `validator.go`. -/
structure CategoryLimits where
  maxBytes : Nat
  maxDimension : Nat
deriving DecidableEq, Repr

/-- `GetCategoryLimits` from `validator.go`: every category gets the same
15 MiB / 6000 px limits. -/
def GetCategoryLimits (_category : String) : CategoryLimits :=
  { maxBytes := 15 * 1024 * 1024, maxDimension := 6000 }

/-- `AllowedFormats` from `validator.go` as a predicate. -/
def AllowedFormats (format : String) : Bool :=
  format = "jpeg" || format = "png" || format = "webp" ||
  format = "gif" || format = "heic" || format = "avif"

/-- `bytes.HasPrefix` on byte lists. -/
def hasPrefixBytes (data pre : List Nat) : Bool :=
  pre.isPrefixOf data

/-- `DetectFormat` from `validator.go`: magic-byte sniffing, implemented over
the raw byte list exactly as the source checks byte ranges. -/
def DetectFormat (data : List Nat) : String :=
  if data.length < 12 then ""
  else if hasPrefixBytes data [0xFF, 0xD8, 0xFF] then "jpeg"
  else if hasPrefixBytes data [0x89, 0x50, 0x4E, 0x47, 0x0D, 0x0A, 0x1A, 0x0A] then "png"
  else if hasPrefixBytes data [0x47, 0x49, 0x46, 0x38] then "gif"
  else if data.take 4 = [0x52, 0x49, 0x46, 0x46] && (data.drop 8).take 4 = [0x57, 0x45, 0x42, 0x50] then "webp"
  else if (data.drop 4).take 4 = [0x66, 0x74, 0x79, 0x70] then
    let brand := (data.drop 8).take 4
    if brand = [0x68, 0x65, 0x69, 0x63] || brand = [0x68, 0x65, 0x69, 0x78] ||
       brand = [0x68, 0x65, 0x76, 0x63] || brand = [0x68, 0x65, 0x76, 0x78] ||
       brand = [0x6D, 0x69, 0x66, 0x31] then "heic"
    else if brand = [0x61, 0x76, 0x69, 0x66] || brand = [0x61, 0x76, 0x69, 0x73] then "avif"
    else ""
  else ""

/-- Oracle for the Go standard-library calls made by `ValidateImage`:
`image.DecodeConfig` (header decode, giving width and height), `image.Decode`
followed by `hasAlphaChannel`, and `crypto/sha256` hex digesting.  These are
outside the repository, so they are parameters of the model. -/
structure GoDecode where
  decodeConfig : List Nat → Option (Nat × Nat)
  decodeAlpha : List Nat → Option Bool
  sha256hex : List Nat → String

/-- The fields of `ValidationResult` that `ValidateImage` fills on success. -/
structure ValidationResult where
  width : Nat
  height : Nat
  format : String
  hasAlpha : Bool
  originalSize : Nat
  contentHash : String
deriving DecidableEq, Repr

/-- The dimension, bomb, hash and alpha steps of `ValidateImage` (steps 4-6),
shared by the decoded and the HEIC/AVIF-fallback paths. -/
def finishValidation (go : GoDecode) (data : List Nat) (format : String)
    (w h : Nat) (maxDim : Nat) : Except String ValidationResult :=
  if w > maxDim || h > maxDim then
    .error s!"image dimensions {w}x{h} exceed maximum {maxDim}"
  else if w * h > 64 * 1024 * 1024 then
    .error "image too large (potential decompression bomb)"
  else
    .ok { width := w, height := h, format := format,
          hasAlpha := (go.decodeAlpha data).getD false,
          originalSize := data.length, contentHash := go.sha256hex data }

/-- `ValidateImage` from `validator.go`: size cap, magic-byte format detection,
header decode (with the HEIC/AVIF zero-dimension fallback of the source),
dimension caps, decompression-bomb cap, content hash, alpha probe. -/
def ValidateImage (go : GoDecode) (data : List Nat) (category : String) :
    Except String ValidationResult :=
  let limits := GetCategoryLimits category
  if data.length > limits.maxBytes then
    .error s!"file size {data.length} exceeds maximum {limits.maxBytes} bytes"
  else
    let format := DetectFormat data
    if format = "" then
      .error "unable to detect image format"
    else if !AllowedFormats format then
      .error s!"format {format} is not allowed"
    else
      match go.decodeConfig data with
      | none =>
          if format ≠ "heic" && format ≠ "avif" then
            .error "failed to decode image"
          else
            -- source: "For HEIC/AVIF, we'll validate dimensions during processing"
            finishValidation go data format 0 0 limits.maxDimension
      | some (w, h) =>
          finishValidation go data format w h limits.maxDimension

/-- `CropConfig` from `service.go`: normalized crop rectangle.  The numeric
fields are only ever handed to libvips, so they stay opaque floats here. -/
structure CropConfig where
  x : Float
  y : Float
  width : Float
  height : Float
deriving Repr

/-- `ProcessedImage` from the libvips `Processor` (`processor.go`): one
exported rendition-format output.  `data` are the exported bytes;
`SizeBytes`/`len(p.Data)` is `data.length`. -/
structure ProcessedImage where
  name : String
  format : String
  width : Nat
  height : Nat
  data : List Nat
deriving DecidableEq, Repr

/-- Oracle for the libvips calls the `Processor` makes against one fixed
source buffer: `LoadImageFromBuffer` (dimensions, or failure), the
`resizeAndCrop` helper (`ExtractArea`/`Thumbnail`), the post-resize height
`baseImg.Height()`, and the per-format `Export*` calls. -/
structure VipsEnv where
  loadDims : Option (Nat × Nat)
  resizeCrop : RenditionConfig → Option CropConfig → Except String Unit
  renditionHeight : RenditionConfig → Option CropConfig → Nat
  exportFmt : RenditionConfig → Option CropConfig → String → Except String (List Nat)

/-- The sequential per-format export loop inside
`Processor.processRendition`: one export failure aborts the whole rendition. -/
def exportFormats (v : VipsEnv) (config : RenditionConfig)
    (cropConfig : Option CropConfig) : List String → Except String (List ProcessedImage)
  | [] => .ok []
  | fmt :: rest =>
      match v.exportFmt config cropConfig fmt with
      | .error e => .error e
      | .ok bs =>
          match exportFormats v config cropConfig rest with
          | .error e => .error e
          | .ok ps =>
              .ok ({ name := config.name, format := fmt, width := config.width,
                     height := v.renditionHeight config cropConfig, data := bs } :: ps)

/-- `Processor.processRendition`: pick the formats, load the source once,
resize/crop once, then export each format sequentially. -/
def processRendition (v : VipsEnv) (config : RenditionConfig) (hasAlpha : Bool)
    (cropConfig : Option CropConfig) : Except String (List ProcessedImage) :=
  let formats := GetFormatsForRendition hasAlpha config.skipAVIF
  match v.loadDims with
  | none => .error "failed to load source"
  | some _ =>
      match v.resizeCrop config cropConfig with
      | .error e => .error ("failed to resize/crop: " ++ e)
      | .ok _ => exportFormats v config cropConfig formats

/-- `Processor.ProcessImage`: probe source dimensions, skip renditions that
would upscale (`r.Width > srcW && (r.Height == 0 || r.Height > srcH)`), run
each kept rendition, and — exactly as the source's errgroup callback does —
swallow per-rendition failures (`return nil // Don't fail the whole job`).
The parallel fan-in order of the Go channel is abstracted to ladder order. -/
def ProcessImage (v : VipsEnv) (category : String) (hasAlpha : Bool)
    (cropConfig : Option CropConfig) : Except String (List ProcessedImage) :=
  match v.loadDims with
  | none => .error "failed to load image"
  | some (srcW, srcH) =>
      let renditions := GetRenditionsForCategory category
      let kept := renditions.filter fun r => !(decide (r.width > srcW) && (decide (r.height = 0) || decide (r.height > srcH)))
      .ok (kept.foldl (fun acc r =>
        match processRendition v r hasAlpha cropConfig with
        | .ok ps => acc ++ ps
        | .error _ => acc) [])

/-- A row of the `image_assets` table (`ImageAsset` in `service.go`).  UUIDs
become `Nat`; the nullable `processed_at` timestamp becomes the flag
"is it set". -/
structure AssetRow where
  id : Nat
  contentHash : String
  originalWidth : Nat
  originalHeight : Nat
  originalFormat : String
  originalSize : Nat
  hasAlpha : Bool
  category : String
  status : ProcessingStatus
  errorMessage : String
  version : Nat
  processedAt : Bool
  createdByUserID : Nat
deriving DecidableEq, Repr

/-- A row of the `image_derivatives` table (`Derivative` in `service.go`). -/
structure DerivativeRow where
  id : Nat
  assetID : Nat
  renditionName : String
  format : String
  width : Nat
  height : Nat
  sizeBytes : Nat
  storageKey : String
deriving DecidableEq, Repr

/-- An in-memory `ProcessingJob` (`service.go`); the same shape is persisted
in `image_processing_jobs`, except that `ImagingRepository.CreateJob` only
writes id, upload key, category, user id and status. -/
structure JobRow where
  id : Nat
  uploadKey : String
  category : String
  userID : Nat
  assetID : Option Nat
  status : ProcessingStatus
  attempts : Nat
  lastError : String
  cropData : Option CropConfig
  isReprocess : Bool
deriving Repr

/-- The durable and shared state the pipeline manipulates: the three SQL
tables, the R2 blob store (key to object bytes), the in-memory job channel
(it carries in-memory `ProcessingJob` values, like the Go channel carries
pointers), and a fresh-identifier counter standing in for `uuid.New()`. -/
structure PipelineState where
  assets : List AssetRow
  derivatives : List DerivativeRow
  jobs : List JobRow
  blobs : List (String × List Nat)
  queue : List JobRow
  nextID : Nat
deriving Repr

/-- `uuid.New()`: allocate a fresh identifier. -/
def freshID (st : PipelineState) : PipelineState × Nat :=
  ({ st with nextID := st.nextID + 1 }, st.nextID)

/-- `ImagingRepository.GetAssetByHash` (the row lookup; `content_hash` is
UNIQUE, so `find?` matches the SQL). -/
def getAssetByHash (st : PipelineState) (hash : String) : Option AssetRow :=
  st.assets.find? fun a => a.contentHash = hash

/-- `ImagingRepository.GetDerivatives`: all derivative rows of one asset;
`GetAssetByHash`/`GetAssetByID` hydrate `asset.Derivatives` with this. -/
def derivativesOf (st : PipelineState) (assetID : Nat) : List DerivativeRow :=
  st.derivatives.filter fun d => d.assetID = assetID

/-- Lookup of a job row by id. -/
def getJob (st : PipelineState) (id : Nat) : Option JobRow :=
  st.jobs.find? fun j => j.id = id

/-- `ImagingRepository.CreateAsset`: plain INSERT; fails (unique violation)
when the primary key or the UNIQUE `content_hash` already exists.  The `Bool`
is insert success. -/
def createAsset (st : PipelineState) (a : AssetRow) : PipelineState × Bool :=
  if st.assets.any (fun r => r.id = a.id || r.contentHash = a.contentHash) then
    (st, false)
  else
    ({ st with assets := st.assets ++ [a] }, true)

/-- The per-row effect of `ImagingRepository.UpdateAssetStatus`:
`SET status, error_message, processed_at` with `processed_at` set iff the new
status is `ready` or `failed`. -/
def applyAssetStatus (status : ProcessingStatus) (errMsg : String) (a : AssetRow) : AssetRow :=
  { a with status := status, errorMessage := errMsg,
           processedAt := status = .ready || status = .failed }

/-- `ImagingRepository.UpdateAssetStatus`. -/
def updateAssetStatus (st : PipelineState) (id : Nat) (status : ProcessingStatus)
    (errMsg : String) : PipelineState :=
  { st with assets := st.assets.map fun a =>
      if a.id = id then applyAssetStatus status errMsg a else a }

/-- `ImagingRepository.CreateDerivative`: plain INSERT; fails on the primary
key or the `UNIQUE(asset_id, rendition_name, format)` constraint. -/
def createDerivative (st : PipelineState) (d : DerivativeRow) : PipelineState × Bool :=
  if st.derivatives.any (fun r => r.id = d.id ||
      (r.assetID = d.assetID && r.renditionName = d.renditionName && r.format = d.format)) then
    (st, false)
  else
    ({ st with derivatives := st.derivatives ++ [d] }, true)

/-- `ImagingRepository.CreateJob`: the INSERT persists only id, upload key,
category, user id and `status='pending'`; attempts defaults to 0 and
`asset_id`, `last_error`, `crop_data`, `is_reprocess` are not written. -/
def createJob (st : PipelineState) (job : JobRow) : PipelineState :=
  { st with jobs := st.jobs ++
      [{ job with status := .pending, assetID := none, attempts := 0,
                  lastError := "", cropData := none, isReprocess := false }] }

/-- The per-row effect of `ImagingRepository.UpdateJob`: `SET status,
asset_id, attempts, last_error` (an absent asset id NULLs the column). -/
def applyJobUpdate (status : ProcessingStatus) (assetID : Option Nat)
    (attempts : Nat) (lastError : String) (j : JobRow) : JobRow :=
  { j with status := status, assetID := assetID, attempts := attempts, lastError := lastError }

/-- `ImagingRepository.UpdateJob`. -/
def updateJob (st : PipelineState) (id : Nat) (status : ProcessingStatus)
    (assetID : Option Nat) (attempts : Nat) (lastError : String) : PipelineState :=
  { st with jobs := st.jobs.map fun j =>
      if j.id = id then applyJobUpdate status assetID attempts lastError j else j }

/-- `R2Client.GetObject`. -/
def lookupBlob (st : PipelineState) (key : String) : Option (List Nat) :=
  (st.blobs.find? fun b => b.1 = key).map fun b => b.2

/-- `R2Client.PutObject` (overwrites). -/
def putBlob (st : PipelineState) (key : String) (data : List Nat) : PipelineState :=
  { st with blobs := (st.blobs.filter fun b => b.1 ≠ key) ++ [(key, data)] }

/-- `R2Client.DeleteObject`. -/
def deleteBlob (st : PipelineState) (key : String) : PipelineState :=
  { st with blobs := st.blobs.filter fun b => b.1 ≠ key }

/-- `R2Client.MoveObject` = Copy + Delete; a missing source makes the move
fail, which `processJob` only logs. -/
def moveBlob (st : PipelineState) (src dst : String) : PipelineState :=
  match lookupBlob st src with
  | none => st
  | some data => deleteBlob (putBlob st dst data) src

/-- The worker's external collaborators: the Go decoding oracle, the libvips
behavior per source buffer, and whether an R2 PUT succeeds for a key
(network weather). -/
structure WorkerEnv where
  go : GoDecode
  vips : List Nat → VipsEnv
  putOk : String → Bool

/-- The `ImageAsset` literal `processJob` builds in step 4 ("Create or Update
asset record"): note `Status: StatusProcessing`. -/
def newAssetRow (id : Nat) (v : ValidationResult) (category : String)
    (userID : Nat) (version : Nat) : AssetRow :=
  { id := id, contentHash := v.contentHash, originalWidth := v.width,
    originalHeight := v.height, originalFormat := v.format,
    originalSize := v.originalSize, hasAlpha := v.hasAlpha,
    category := category, status := .processing, errorMessage := "",
    version := version, processedAt := false, createdByUserID := userID }

/-- The derivative storage key `processJob` formats:
`derivatives/{hash[:2]}/{hash}/v{version}/{rendition}.{format}`. -/
def derivativeKeyFor (hashPfx hash : String) (version : Nat)
    (name fmt : String) : String :=
  s!"derivatives/{hashPfx}/{hash}/v{version}/{name}.{fmt}"

/-- The canonical original key `originals/{hash[:2]}/{hash}/original`. -/
def originalKeyFor (hashPfx hash : String) : String :=
  s!"originals/{hashPfx}/{hash}/original"

/-- Step 6 of `processJob`: upload every processed image to its deterministic
key and build the corresponding `Derivative` values.  The Go code runs these
under an errgroup with a semaphore of 10 and a mutex-guarded append; here the
uploads run sequentially in list order, and a failing PUT aborts the batch
(the errgroup cancels and `g.Wait` surfaces the error). -/
def uploadAll (env : WorkerEnv) (st : PipelineState) (hashPfx hash : String)
    (version assetID : Nat) :
    List ProcessedImage → Except (PipelineState × String) (PipelineState × List DerivativeRow)
  | [] => .ok (st, [])
  | p :: rest =>
      let key := derivativeKeyFor hashPfx hash version p.name p.format
      if env.putOk key then
        let fr := freshID (putBlob st key p.data)
        let d : DerivativeRow :=
          { id := fr.2, assetID := assetID, renditionName := p.name,
            format := p.format, width := p.width, height := p.height,
            sizeBytes := p.data.length, storageKey := key }
        match uploadAll env fr.1 hashPfx hash version assetID rest with
        | .ok (st2, ds) => .ok (st2, d :: ds)
        | .error e => .error e
      else
        .error (st, s!"failed to upload {p.name}: put object failed")

/-- The derivative-record loop of `processJob`: sequential inserts, a failed
insert is logged and skipped. -/
def insertDerivativeRows (st : PipelineState) : List DerivativeRow → PipelineState
  | [] => st
  | d :: rest => insertDerivativeRows (createDerivative st d).1 rest

/-- Steps "link job" through 8 of `processJob`, once an asset id and version
have been settled: link the job, run the Transformer, upload the derivatives,
insert their rows, move the original, and mark asset and job ready. -/
def afterAssetRecord (env : WorkerEnv) (st : PipelineState) (job : JobRow)
    (validation : ValidationResult) (data : List Nat) (assetID version : Nat) :
    PipelineState × Except String Unit :=
  let st1 := updateJob st job.id .processing (some assetID) job.attempts ""
  match ProcessImage (env.vips data) job.category validation.hasAlpha job.cropData with
  | .error e =>
      (updateAssetStatus st1 assetID .failed e, .error ("processing failed: " ++ e))
  | .ok processed =>
      let st2 := updateAssetStatus st1 assetID .uploading ""
      let hashPfx := validation.contentHash.take 2
      match uploadAll env st2 hashPfx validation.contentHash version assetID processed with
      | .error (st3, e) =>
          (updateAssetStatus st3 assetID .failed e, .error ("upload failed: " ++ e))
      | .ok (st3, derivs) =>
          let st4 := insertDerivativeRows st3 derivs
          let originalKey := originalKeyFor hashPfx validation.contentHash
          let st5 := if job.uploadKey ≠ originalKey then moveBlob st4 job.uploadKey originalKey else st4
          let st6 := updateAssetStatus st5 assetID .ready ""
          let st7 := updateJob st6 job.id .ready (some assetID) job.attempts ""
          (st7, .ok ())

/-- Step 4 of `processJob`.  For an existing asset the source only calls
`UpdateAssetStatus(id, StatusProcessing, "")` — the freshly computed version is
NOT persisted (the source itself remarks "Ideally we update Version too.").
For a fresh asset it INSERTs and fails the job on a conflict. -/
def continueProcessing (env : WorkerEnv) (st : PipelineState) (job : JobRow)
    (validation : ValidationResult) (data : List Nat) (assetID version : Nat)
    (existing : Bool) : PipelineState × Except String Unit :=
  if existing then
    afterAssetRecord env (updateAssetStatus st assetID .processing "") job validation data assetID version
  else
    let res := createAsset st (newAssetRow assetID validation job.category job.userID version)
    if res.2 then
      afterAssetRecord env res.1 job validation data assetID version
    else
      (res.1, .error "failed to create asset record: create asset: conflict")

/-- `Service.processJob`: the full per-job pipeline.  `mid` models the other
workers that may run between the dedup lookup (step 3) and the asset insert
(step 4) — the single read-then-write window the source has; sequential runs
pass the identity. -/
def processJob (env : WorkerEnv) (mid : PipelineState → PipelineState)
    (st : PipelineState) (job : JobRow) : PipelineState × Except String Unit :=
  -- step 1: mark downloading (NULLing asset_id) and fetch the upload
  let st1 := updateJob st job.id .downloading none job.attempts ""
  match lookupBlob st1 job.uploadKey with
  | none => (st1, .error "failed to download original")
  | some data =>
      -- step 2: validate
      match ValidateImage env.go data job.category with
      | .error e => (st1, .error ("validation failed: " ++ e))
      | .ok validation =>
          -- step 3: dedup lookup by content hash
          let dedup := getAssetByHash st1 validation.contentHash
          let st2 := mid st1
          match dedup with
          | some existing =>
              if job.isReprocess = false ∧ existing.status = .ready then
                -- reuse: link the job, mark it ready, delete the staging upload
                let st3 := updateJob st2 job.id .ready (some existing.id) job.attempts ""
                (deleteBlob st3 job.uploadKey, .ok ())
              else
                continueProcessing env st2 job validation data existing.id (existing.version + 1) true
          | none =>
              let fr := freshID st2
              continueProcessing env fr.1 job validation data fr.2 1 false

/-- `Service.handleJobFailure`: increment attempts, record the error; below
three attempts the job goes back to `pending` and is re-enqueued after a
backoff (a non-blocking send — dropped when the channel, capacity 1000, is
full); otherwise it is marked `failed`.  Returns the updated in-memory job. -/
def handleJobFailure (st : PipelineState) (job : JobRow) (err : String) :
    PipelineState × JobRow :=
  let attempts := job.attempts + 1
  let job1 := { job with attempts := attempts, lastError := err }
  if attempts < 3 then
    let st1 := updateJob st job.id .pending none attempts err
    (if st1.queue.length < 1000 then { st1 with queue := st1.queue ++ [job1] } else st1, job1)
  else
    (updateJob st job.id .failed none attempts err, job1)

/-- One `Service.worker` iteration on a dequeued job: run `processJob` and
route any error through `handleJobFailure`. -/
def runJob (env : WorkerEnv) (mid : PipelineState → PipelineState)
    (st : PipelineState) (job : JobRow) : PipelineState :=
  match processJob env mid st job with
  | (st1, .ok _) => st1
  | (st1, .error e) => (handleJobFailure st1 job e).1

/-- `Service.QueueProcessing`: build the in-memory job, persist it, then a
non-blocking enqueue (the job stays pending in the store if the channel is
full). -/
def queueProcessing (st : PipelineState) (uploadKey category : String)
    (userID : Nat) (cropConfig : Option CropConfig) : PipelineState × Nat :=
  let (st1, jid) := freshID st
  let job : JobRow :=
    { id := jid, uploadKey := uploadKey, category := category, userID := userID,
      assetID := none, status := .pending, attempts := 0, lastError := "",
      cropData := cropConfig, isReprocess := false }
  let st2 := createJob st1 job
  (if st2.queue.length < 1000 then { st2 with queue := st2.queue ++ [job] } else st2, jid)

/-- `Service.QueueReprocessing`: identical but with `IsReprocess: true`. -/
def queueReprocessing (st : PipelineState) (uploadKey category : String)
    (userID : Nat) (cropConfig : Option CropConfig) : PipelineState × Nat :=
  let (st1, jid) := freshID st
  let job : JobRow :=
    { id := jid, uploadKey := uploadKey, category := category, userID := userID,
      assetID := none, status := .pending, attempts := 0, lastError := "",
      cropData := cropConfig, isReprocess := true }
  let st2 := createJob st1 job
  (if st2.queue.length < 1000 then { st2 with queue := st2.queue ++ [job] } else st2, jid)

/-- The category prefix `GetDerivativeKey` extracts from a rendition name:
everything before the first `_`, or `""` when there is none
(`strings.Index(renditionName, "_")`). -/
def extractRenditionCategory (renditionName : String) : String :=
  match renditionName.splitOn "_" with
  | c :: _ :: _ => c
  | _ => ""

/-- The candidate-selection cascade of `Service.GetDerivativeKey`: exact
rendition-name matches, else derivatives whose rendition name shares the
category prefix, else all derivatives of the asset. -/
def candidatesOf (derivs : List DerivativeRow) (renditionName : String) : List DerivativeRow :=
  let exact := derivs.filter fun d => d.renditionName = renditionName
  if exact ≠ [] then exact
  else
    let category := extractRenditionCategory renditionName
    let byCat := if category ≠ "" then derivs.filter fun d => category.isPrefixOf d.renditionName else []
    if byCat ≠ [] then byCat else derivs

/-- The fallback format priority list of `Service.GetDerivativeKey` — note it
holds five entries, with `"jpg"` between `"jpeg"` and `"png"`. -/
def formatPriorities : List String := ["avif", "webp", "jpeg", "jpg", "png"]

/-- `Service.GetDerivativeKey(contentHash, renditionName, preferredFormat)`:
not-found / not-ready guards, the `"original"` special case, the candidate
cascade, the preferred-format match, then the priority scan with a
first-candidate fallback. -/
def GetDerivativeKey (st : PipelineState) (contentHash renditionName preferredFormat : String) :
    Except String (String × String) :=
  match getAssetByHash st contentHash with
  | none => .error "asset not found"
  | some asset =>
      if asset.status ≠ .ready then .error "asset not ready"
      else if renditionName = "original" then
        .ok (originalKeyFor (contentHash.take 2) contentHash, asset.originalFormat)
      else
        match candidatesOf (derivativesOf st asset.id) renditionName with
        | [] => .error "no derivatives found"
        | c :: cs =>
            let preferred :=
              if preferredFormat ≠ "" then
                (c :: cs).find? fun d => d.format = preferredFormat
              else none
            match preferred with
            | some d => .ok (d.storageKey, d.format)
            | none =>
                match formatPriorities.findSome? (fun f => (c :: cs).find? fun d => d.format = f) with
                | some d => .ok (d.storageKey, d.format)
                | none => .ok (c.storageKey, c.format)

/-- Modelled from the spec: the resolution priority the spec states for
`GetDerivativeKey` with no preferred format — "pick by priority
`avif > webp > jpeg > png`" (four formats, no `jpg`).  Used only to compare
the spec's rule against the code's. -/
def specPriorityPick (candidates : List DerivativeRow) : Option DerivativeRow :=
  ["avif", "webp", "jpeg", "png"].findSome? fun f => candidates.find? fun d => d.format = f

/-- The rank of a format in the code's priority list (5 = not listed). -/
def formatRank (f : String) : Nat :=
  if f = "avif" then 0
  else if f = "webp" then 1
  else if f = "jpeg" then 2
  else if f = "jpg" then 3
  else if f = "png" then 4
  else 5

/-- `Except.isError` as a plain boolean discriminator. -/
def isErr {ε α : Type} : Except ε α → Bool
  | .error _ => true
  | .ok _ => false

/-- Projection used to reason uniformly about both outcomes of `uploadAll`. -/
def uploadOutState (r : Except (PipelineState × String) (PipelineState × List DerivativeRow)) :
    PipelineState :=
  match r with
  | .ok (st, _) => st
  | .error (st, _) => st

/-! ### Concrete fixtures

Small closed environments and states used by the counterexamples and
witnesses below; each corresponds to a short hand-trace of the Go code. -/

/-- A fixed 64-hex-character content hash, as `sha256` produces. -/
def demoHash : String :=
  "abcdef0123456789abcdef0123456789abcdef0123456789abcdef0123456789"

/-- A 12-byte buffer starting with the JPEG magic `FF D8 FF`. -/
def demoData : List Nat := [0xFF, 0xD8, 0xFF, 0, 0, 0, 0, 0, 0, 0, 0, 0]

/-- A Go-decoding oracle reporting fixed dimensions, no alpha, `demoHash`. -/
def mkGo (w h : Nat) : GoDecode :=
  { decodeConfig := fun _ => some (w, h),
    decodeAlpha := fun _ => some false,
    sha256hex := fun _ => demoHash }

/-- The `ValidationResult` that `ValidateImage` produces for `demoData`
under `mkGo 400 300`. -/
def demoValidation : ValidationResult :=
  { width := 400, height := 300, format := "jpeg", hasAlpha := false,
    originalSize := 12, contentHash := demoHash }

/-- A libvips oracle for a 400×300 source where every operation succeeds. -/
def demoVips : VipsEnv :=
  { loadDims := some (400, 300),
    resizeCrop := fun _ _ => .ok (),
    renditionHeight := fun r _ => if r.height = 0 then 240 else r.height,
    exportFmt := fun _ _ _ => .ok [1, 2, 3] }

/-- Worker environment for the happy path. -/
def demoEnv : WorkerEnv :=
  { go := mkGo 400 300, vips := fun _ => demoVips, putOk := fun _ => true }

/-- A first-attempt non-reprocess job. -/
def demoJob : JobRow :=
  { id := 1, uploadKey := "uploads/tmp/u7/general/k1.jpg", category := "general",
    userID := 7, assetID := none, status := .pending, attempts := 0,
    lastError := "", cropData := none, isReprocess := false }

/-- Initial state: one pending job, its staged upload, empty tables. -/
def demoState : PipelineState :=
  { assets := [], derivatives := [], jobs := [demoJob],
    blobs := [("uploads/tmp/u7/general/k1.jpg", demoData)], queue := [], nextID := 100 }

/-- A job whose staged object holds unparseable bytes (empty buffer). -/
def badJob : JobRow := { demoJob with id := 2, uploadKey := "bad/k" }

/-- State for `badJob`: the staged object exists but holds no valid image. -/
def badState : PipelineState :=
  { assets := [], derivatives := [], jobs := [badJob],
    blobs := [("bad/k", [])], queue := [], nextID := 100 }

/-- A libvips oracle where loading works but every rendition's resize fails. -/
def vipsAllFail : VipsEnv :=
  { demoVips with resizeCrop := fun _ _ => .error "vips: resize failed" }

/-- Worker environment in which every rendition fails. -/
def envAllFail : WorkerEnv := { demoEnv with vips := fun _ => vipsAllFail }

/-- Worker environment for a 10×10 source: smaller than every `general`
rendition target, so the no-upscaling rule skips the whole ladder. -/
def envTiny : WorkerEnv :=
  { go := mkGo 10 10,
    vips := fun _ => { demoVips with loadDims := some (10, 10) },
    putOk := fun _ => true }

/-- A ready version-1 asset for `demoHash`. -/
def v1Asset : AssetRow :=
  { id := 50, contentHash := demoHash, originalWidth := 400, originalHeight := 300,
    originalFormat := "jpeg", originalSize := 12, hasAlpha := false,
    category := "general", status := .ready, errorMessage := "", version := 1,
    processedAt := true, createdByUserID := 7 }

/-- One of `v1Asset`'s persisted derivatives (version-1 storage key). -/
def v1Deriv : DerivativeRow :=
  { id := 60, assetID := 50, renditionName := "general_320", format := "jpg",
    width := 320, height := 240, sizeBytes := 3,
    storageKey := "derivatives/ab/" ++ demoHash ++ "/v1/general_320.jpg" }

/-- A reprocess job reading the canonical original of `demoHash`. -/
def reprocJob : JobRow :=
  { demoJob with id := 3, uploadKey := "originals/ab/" ++ demoHash ++ "/original", isReprocess := true }

/-- State before the reprocess: ready v1 asset, its derivative row, the
canonical original in the blob store. -/
def reprocState : PipelineState :=
  { assets := [v1Asset], derivatives := [v1Deriv], jobs := [reprocJob],
    blobs := [("originals/ab/" ++ demoHash ++ "/original", demoData)],
    queue := [], nextID := 100 }

/-- The asset row a concurrent worker inserts for the same hash. -/
def concurrentRow : AssetRow :=
  { v1Asset with id := 99, status := .processing, processedAt := false }

/-- Interference: between the dedup lookup and the insert, a concurrent
worker creates the asset for the same content hash. -/
def raceMid : PipelineState → PipelineState :=
  fun s => (createAsset s concurrentRow).1

/-- The in-memory job `handleJobFailure` re-enqueues after the conflicting
first attempt of `demoJob`. -/
def demoJobRetry : JobRow :=
  { demoJob with attempts := 1, lastError := "failed to create asset record: create asset: conflict" }

/-- A second staged upload of the same bytes, by another user. -/
def dupJob : JobRow :=
  { demoJob with id := 4, uploadKey := "uploads/tmp/u8/general/k2.jpg", userID := 8 }

/-- State in which `demoHash` is already ready when `dupJob` runs. -/
def dupState : PipelineState :=
  { assets := [v1Asset], derivatives := [v1Deriv], jobs := [dupJob],
    blobs := [("uploads/tmp/u8/general/k2.jpg", demoData)], queue := [], nextID := 100 }

/-- Derivative rows whose formats are `png` and `jpg` under one rendition. -/
def pngDeriv : DerivativeRow :=
  { id := 60, assetID := 50, renditionName := "general_320", format := "png",
    width := 320, height := 240, sizeBytes := 3, storageKey := "K1" }

/-- See `pngDeriv`. -/
def jpgDeriv : DerivativeRow :=
  { id := 61, assetID := 50, renditionName := "general_320", format := "jpg",
    width := 320, height := 240, sizeBytes := 3, storageKey := "K2" }

/-- A ready asset whose derivative set is `{png, jpg}` for one rendition. -/
def mixedState : PipelineState :=
  { assets := [v1Asset], derivatives := [pngDeriv, jpgDeriv],
    jobs := [], blobs := [], queue := [], nextID := 100 }

/-- Derivative rows for the `GetDerivativeKey` witness: avif and webp. -/
def avifDeriv : DerivativeRow :=
  { id := 62, assetID := 50, renditionName := "general_320", format := "avif",
    width := 320, height := 240, sizeBytes := 3, storageKey := "KA" }

/-- See `avifDeriv`. -/
def webpDeriv : DerivativeRow :=
  { id := 63, assetID := 50, renditionName := "general_320", format := "webp",
    width := 320, height := 240, sizeBytes := 3, storageKey := "KW" }

/-- A ready asset carrying avif and webp derivatives. -/
def richState : PipelineState :=
  { assets := [v1Asset], derivatives := [avifDeriv, webpDeriv],
    jobs := [], blobs := [], queue := [], nextID := 100 }

/-- The first derivative row the happy-path run persists (used to witness
the format walk). -/
def avifRow : DerivativeRow :=
  { id := 101, assetID := 100, renditionName := "general_320", format := "avif",
    width := 320, height := 240, sizeBytes := 3,
    storageKey := "derivatives/ab/" ++ demoHash ++ "/v1/general_320.avif" }

/-- An oversize-dimension decoding oracle (7000 px wide). -/
def wideGo : GoDecode := mkGo 7000 100

/-- Worker environment whose decoder reports oversize dimensions. -/
def wideEnv : WorkerEnv :=
  { go := wideGo, vips := fun _ => demoVips, putOk := fun _ => true }

/-- State for the oversize-dimension witness. -/
def wideState : PipelineState :=
  { assets := [], derivatives := [], jobs := [demoJob],
    blobs := [("uploads/tmp/u7/general/k1.jpg", demoData)], queue := [], nextID := 100 }

/-- "Every asset row satisfies `Q`" — the shape of the row invariants. -/
def assetInv (Q : AssetRow → Prop) (st : PipelineState) : Prop :=
  ∀ a ∈ st.assets, Q a

/-! ### Helper lemmas: which state components each operation touches -/

theorem assets_updateJob (st : PipelineState) (i : Nat) (s : ProcessingStatus)
    (aid : Option Nat) (att : Nat) (le : String) :
    (updateJob st i s aid att le).assets = st.assets := rfl

theorem derivatives_updateJob (st : PipelineState) (i : Nat) (s : ProcessingStatus)
    (aid : Option Nat) (att : Nat) (le : String) :
    (updateJob st i s aid att le).derivatives = st.derivatives := rfl

theorem blobs_updateJob (st : PipelineState) (i : Nat) (s : ProcessingStatus)
    (aid : Option Nat) (att : Nat) (le : String) :
    (updateJob st i s aid att le).blobs = st.blobs := rfl

theorem lookupBlob_updateJob (st : PipelineState) (i : Nat) (s : ProcessingStatus)
    (aid : Option Nat) (att : Nat) (le : String) (k : String) :
    lookupBlob (updateJob st i s aid att le) k = lookupBlob st k := rfl

theorem getAssetByHash_updateJob (st : PipelineState) (i : Nat) (s : ProcessingStatus)
    (aid : Option Nat) (att : Nat) (le : String) (h : String) :
    getAssetByHash (updateJob st i s aid att le) h = getAssetByHash st h := rfl

theorem jobs_updateAssetStatus (st : PipelineState) (i : Nat) (s : ProcessingStatus) (e : String) :
    (updateAssetStatus st i s e).jobs = st.jobs := rfl

theorem derivatives_updateAssetStatus (st : PipelineState) (i : Nat) (s : ProcessingStatus) (e : String) :
    (updateAssetStatus st i s e).derivatives = st.derivatives := rfl

theorem getJob_deleteBlob (st : PipelineState) (k : String) (i : Nat) :
    getJob (deleteBlob st k) i = getJob st i := rfl

theorem assets_deleteBlob (st : PipelineState) (k : String) :
    (deleteBlob st k).assets = st.assets := rfl

theorem derivatives_deleteBlob (st : PipelineState) (k : String) :
    (deleteBlob st k).derivatives = st.derivatives := rfl

theorem assets_putBlob (st : PipelineState) (k : String) (d : List Nat) :
    (putBlob st k d).assets = st.assets := rfl

theorem assets_moveBlob (st : PipelineState) (src dst : String) :
    (moveBlob st src dst).assets = st.assets := by
  unfold moveBlob
  cases lookupBlob st src <;> rfl

theorem derivatives_moveBlob (st : PipelineState) (src dst : String) :
    (moveBlob st src dst).derivatives = st.derivatives := by
  unfold moveBlob
  cases lookupBlob st src <;> rfl

theorem assets_createDerivative (st : PipelineState) (d : DerivativeRow) :
    (createDerivative st d).1.assets = st.assets := by
  unfold createDerivative
  split <;> rfl

theorem assets_insertDerivativeRows :
    ∀ (ds : List DerivativeRow) (st : PipelineState),
      (insertDerivativeRows st ds).assets = st.assets := by
  intro ds
  induction ds with
  | nil => intro st; rfl
  | cons d rest ih =>
      intro st
      unfold insertDerivativeRows
      rw [ih, assets_createDerivative]

/-- Updating two job fields in a row collapses to the second update. -/
theorem applyJobUpdate_twice (s1 s2 : ProcessingStatus) (a1 a2 : Option Nat)
    (t1 t2 : Nat) (e1 e2 : String) (j : JobRow) :
    applyJobUpdate s2 a2 t2 e2 (applyJobUpdate s1 a1 t1 e1 j) =
      applyJobUpdate s2 a2 t2 e2 j := rfl

/-- `UpdateJob` rewrites exactly the row with the given id. -/
theorem getJob_updateJob (st : PipelineState) (i : Nat) (s : ProcessingStatus)
    (aid : Option Nat) (att : Nat) (le : String) :
    getJob (updateJob st i s aid att le) i =
      (getJob st i).map (applyJobUpdate s aid att le) := by
  unfold getJob updateJob
  simp only
  induction st.jobs with
  | nil => rfl
  | cons j rest ih =>
      simp only [List.map_cons]
      by_cases hj : j.id = i
      · rw [if_pos hj]
        rw [List.find?_cons_of_pos _ (by simp [applyJobUpdate, hj]),
            List.find?_cons_of_pos _ (by simp [hj])]
        rfl
      · rw [if_neg hj]
        rw [List.find?_cons_of_neg _ (by simp [hj]),
            List.find?_cons_of_neg _ (by simp [hj])]
        exact ih

/-- Deleting a blob makes its key unresolvable. -/
theorem lookupBlob_deleteBlob (st : PipelineState) (k : String) :
    lookupBlob (deleteBlob st k) k = none := by
  unfold lookupBlob deleteBlob
  simp only
  have h : List.find? (fun b => decide (b.1 = k))
      (List.filter (fun b => decide (b.1 ≠ k)) st.blobs) = none := by
    rw [List.find?_eq_none]
    intro b hb
    have h2 := List.of_mem_filter hb
    simp only [decide_eq_true_eq] at h2 ⊢
    exact h2
  rw [h]
  rfl

/-- `uploadAll` only touches the blob store and the id counter: the asset
table is unchanged whether it succeeds or fails. -/
theorem uploadAll_outState_assets (env : WorkerEnv) (h1 h2 : String) (v aid : Nat) :
    ∀ (ps : List ProcessedImage) (st : PipelineState),
      (uploadOutState (uploadAll env st h1 h2 v aid ps)).assets = st.assets := by
  intro ps
  induction ps with
  | nil => intro st; rfl
  | cons p rest ih =>
      intro st
      unfold uploadAll
      by_cases hp : env.putOk (derivativeKeyFor h1 h2 v p.name p.format)
      · rw [if_pos hp]
        have hrec := ih (freshID (putBlob st (derivativeKeyFor h1 h2 v p.name p.format) p.data)).1
        cases hu : uploadAll env (freshID (putBlob st (derivativeKeyFor h1 h2 v p.name p.format) p.data)).1 h1 h2 v aid rest with
        | ok pr =>
            obtain ⟨st2, ds⟩ := pr
            rw [hu] at hrec
            dsimp only
            rw [hu]
            simpa [uploadOutState] using hrec
        | error e =>
            obtain ⟨st2, msg⟩ := e
            rw [hu] at hrec
            dsimp only
            rw [hu]
            simpa [uploadOutState] using hrec
      · rw [if_neg hp]
        rfl

/-- Same for the derivative table. -/
theorem uploadAll_outState_derivatives (env : WorkerEnv) (h1 h2 : String) (v aid : Nat) :
    ∀ (ps : List ProcessedImage) (st : PipelineState),
      (uploadOutState (uploadAll env st h1 h2 v aid ps)).derivatives = st.derivatives := by
  intro ps
  induction ps with
  | nil => intro st; rfl
  | cons p rest ih =>
      intro st
      unfold uploadAll
      by_cases hp : env.putOk (derivativeKeyFor h1 h2 v p.name p.format)
      · rw [if_pos hp]
        have hrec := ih (freshID (putBlob st (derivativeKeyFor h1 h2 v p.name p.format) p.data)).1
        cases hu : uploadAll env (freshID (putBlob st (derivativeKeyFor h1 h2 v p.name p.format) p.data)).1 h1 h2 v aid rest with
        | ok pr =>
            obtain ⟨st2, ds⟩ := pr
            rw [hu] at hrec
            dsimp only
            rw [hu]
            simpa [uploadOutState] using hrec
        | error e =>
            obtain ⟨st2, msg⟩ := e
            rw [hu] at hrec
            dsimp only
            rw [hu]
            simpa [uploadOutState] using hrec
      · rw [if_neg hp]
        rfl

/-- Same for the job table. -/
theorem uploadAll_outState_jobs (env : WorkerEnv) (h1 h2 : String) (v aid : Nat) :
    ∀ (ps : List ProcessedImage) (st : PipelineState),
      (uploadOutState (uploadAll env st h1 h2 v aid ps)).jobs = st.jobs := by
  intro ps
  induction ps with
  | nil => intro st; rfl
  | cons p rest ih =>
      intro st
      unfold uploadAll
      by_cases hp : env.putOk (derivativeKeyFor h1 h2 v p.name p.format)
      · rw [if_pos hp]
        have hrec := ih (freshID (putBlob st (derivativeKeyFor h1 h2 v p.name p.format) p.data)).1
        cases hu : uploadAll env (freshID (putBlob st (derivativeKeyFor h1 h2 v p.name p.format) p.data)).1 h1 h2 v aid rest with
        | ok pr =>
            obtain ⟨st2, ds⟩ := pr
            rw [hu] at hrec
            dsimp only
            rw [hu]
            simpa [uploadOutState] using hrec
        | error e =>
            obtain ⟨st2, msg⟩ := e
            rw [hu] at hrec
            dsimp only
            rw [hu]
            simpa [uploadOutState] using hrec
      · rw [if_neg hp]
        rfl

/-- Every `Derivative` value built by a successful `uploadAll` carries the
format of one of the processed images it uploaded. -/
theorem uploadAll_ok_formats (env : WorkerEnv) (h1 h2 : String) (v aid : Nat) :
    ∀ (ps : List ProcessedImage) (st st2 : PipelineState) (ds : List DerivativeRow),
      uploadAll env st h1 h2 v aid ps = .ok (st2, ds) →
      ∀ d ∈ ds, ∃ p ∈ ps, d.format = p.format := by
  intro ps
  induction ps with
  | nil =>
      intro st st2 ds h d hd
      unfold uploadAll at h
      cases h
      simp at hd
  | cons p rest ih =>
      intro st st2 ds h d hd
      unfold uploadAll at h
      by_cases hp : env.putOk (derivativeKeyFor h1 h2 v p.name p.format)
      · rw [if_pos hp] at h
        dsimp only at h
        cases hu : uploadAll env (freshID (putBlob st (derivativeKeyFor h1 h2 v p.name p.format) p.data)).1 h1 h2 v aid rest with
        | ok pr =>
            obtain ⟨st3, ds'⟩ := pr
            rw [hu] at h
            cases h
            rcases List.mem_cons.mp hd with hd | hd
            · exact ⟨p, List.mem_cons_self _ _, by rw [hd]⟩
            · obtain ⟨q, hq, hqf⟩ := ih _ _ _ hu d hd
              exact ⟨q, List.mem_cons_of_mem _ hq, hqf⟩
        | error e =>
            rw [hu] at h
            cases h
      · rw [if_neg hp] at h
        cases h

/-- The derivative-record loop only ever appends the rows it was given. -/
theorem insertDerivativeRows_mem :
    ∀ (ds : List DerivativeRow) (st : PipelineState) (d : DerivativeRow),
      d ∈ (insertDerivativeRows st ds).derivatives → d ∈ st.derivatives ∨ d ∈ ds := by
  intro ds
  induction ds with
  | nil => intro st d hd; exact .inl hd
  | cons x rest ih =>
      intro st d hd
      unfold insertDerivativeRows at hd
      rcases ih _ _ hd with h | h
      · unfold createDerivative at h
        split at h
        · exact .inl h
        · simp only at h
          rcases List.mem_append.mp h with h | h
          · exact .inl h
          · simp only [List.mem_singleton] at h
            exact .inr (by simp [h])
      · exact .inr (List.mem_cons_of_mem _ h)

/-- Each image exported for a rendition carries a format from the requested
format list. -/
theorem exportFormats_formats (v : VipsEnv) (config : RenditionConfig)
    (cc : Option CropConfig) :
    ∀ (fmts : List String) (ps : List ProcessedImage),
      exportFormats v config cc fmts = .ok ps → ∀ p ∈ ps, p.format ∈ fmts := by
  intro fmts
  induction fmts with
  | nil =>
      intro ps h p hp
      unfold exportFormats at h
      cases h
      simp at hp
  | cons f rest ih =>
      intro ps h p hp
      unfold exportFormats at h
      cases he : v.exportFmt config cc f with
      | error e => rw [he] at h; cases h
      | ok bs =>
          rw [he] at h
          cases hr : exportFormats v config cc rest with
          | error e => rw [hr] at h; cases h
          | ok ps' =>
              rw [hr] at h
              cases h
              rcases List.mem_cons.mp hp with hp | hp
              · rw [hp]
                exact List.mem_cons_self _ _
              · exact List.mem_cons_of_mem _ (ih ps' hr p hp)

/-- `processRendition` pulls its output formats from
`GetFormatsForRendition`. -/
theorem processRendition_formats (v : VipsEnv) (r : RenditionConfig) (ha : Bool)
    (cc : Option CropConfig) (ps : List ProcessedImage)
    (h : processRendition v r ha cc = .ok ps) :
    ∀ p ∈ ps, p.format ∈ GetFormatsForRendition ha r.skipAVIF := by
  unfold processRendition at h
  cases hl : v.loadDims with
  | none => rw [hl] at h; cases h
  | some d =>
      rw [hl] at h
      dsimp only at h
      cases hr : v.resizeCrop r cc with
      | error e => rw [hr] at h; cases h
      | ok u => rw [hr] at h; exact exportFormats_formats v r cc _ ps h

/-- The format table only ever emits `avif`, `webp`, `jpg`, `png`. -/
theorem formats_subset_four :
    ∀ (ha s : Bool), ∀ f ∈ GetFormatsForRendition ha s,
      f ∈ ["avif", "webp", "jpg", "png"] := by decide

/-- Membership in `ProcessImage`'s rendition fold comes from the initial
accumulator or from one successfully processed rendition. -/
theorem mem_foldl_renditions (v : VipsEnv) (ha : Bool) (cc : Option CropConfig) :
    ∀ (l : List RenditionConfig) (acc : List ProcessedImage) (p : ProcessedImage),
      p ∈ l.foldl (fun acc r =>
        match processRendition v r ha cc with
        | .ok ps => acc ++ ps
        | .error _ => acc) acc →
      p ∈ acc ∨ ∃ r ∈ l, ∃ ps, processRendition v r ha cc = .ok ps ∧ p ∈ ps := by
  intro l
  induction l with
  | nil => intro acc p hp; exact .inl hp
  | cons r rest ih =>
      intro acc p hp
      simp only [List.foldl_cons] at hp
      cases hr : processRendition v r ha cc with
      | ok ps =>
          rw [hr] at hp
          rcases ih _ p hp with h | h
          · rcases List.mem_append.mp h with h | h
            · exact .inl h
            · exact .inr ⟨r, List.mem_cons_self _ _, ps, hr, h⟩
          · obtain ⟨r', hr', ps', h1, h2⟩ := h
            exact .inr ⟨r', List.mem_cons_of_mem _ hr', ps', h1, h2⟩
      | error e =>
          rw [hr] at hp
          rcases ih _ p hp with h | h
          · exact .inl h
          · obtain ⟨r', hr', ps', h1, h2⟩ := h
            exact .inr ⟨r', List.mem_cons_of_mem _ hr', ps', h1, h2⟩

/-- Every image `ProcessImage` returns has one of the four format ids. -/
theorem ProcessImage_formats (v : VipsEnv) (cat : String) (ha : Bool)
    (cc : Option CropConfig) (ps : List ProcessedImage)
    (h : ProcessImage v cat ha cc = .ok ps) :
    ∀ p ∈ ps, p.format ∈ ["avif", "webp", "jpg", "png"] := by
  intro p hp
  unfold ProcessImage at h
  cases hl : v.loadDims with
  | none => rw [hl] at h; cases h
  | some d =>
      obtain ⟨srcW, srcH⟩ := d
      rw [hl] at h
      dsimp only at h
      injection h with h
      subst h
      rcases mem_foldl_renditions v ha cc _ [] p hp with h | h
      · simp at h
      · obtain ⟨r, hr, ps', h1, h2⟩ := h
        exact formats_subset_four ha r.skipAVIF p.format
          (processRendition_formats v r ha cc ps' h1 p h2)

/-- Row invariants transfer along equal asset tables. -/
theorem assetInv_of_assets_eq {Q : AssetRow → Prop} {st st' : PipelineState}
    (h : st'.assets = st.assets) (hst : assetInv Q st) : assetInv Q st' := by
  intro a ha
  exact hst a (h ▸ ha)

/-- `UpdateAssetStatus` preserves a row invariant that every status write of
the given shape re-establishes. -/
theorem assetInv_updateAssetStatus {Q : AssetRow → Prop} (st : PipelineState)
    (i : Nat) (s : ProcessingStatus) (e : String)
    (hst : assetInv Q st)
    (hs : ∀ a, Q (applyAssetStatus s e a)) :
    assetInv Q (updateAssetStatus st i s e) := by
  intro a ha
  unfold updateAssetStatus at ha
  dsimp only at ha
  simp only [List.mem_map] at ha
  obtain ⟨b, hb, hba⟩ := ha
  by_cases hid : b.id = i
  · rw [if_pos hid] at hba
    rw [← hba]
    exact hs b
  · rw [if_neg hid] at hba
    rw [← hba]
    exact hst b hb

/-- `CreateAsset` preserves a row invariant the inserted row satisfies. -/
theorem assetInv_createAsset {Q : AssetRow → Prop} (st : PipelineState)
    (row : AssetRow) (hst : assetInv Q st) (hrow : Q row) :
    assetInv Q (createAsset st row).1 := by
  intro a ha
  unfold createAsset at ha
  by_cases hc : (st.assets.any fun r => r.id = row.id || r.contentHash = row.contentHash) = true
  · rw [if_pos hc] at ha
    exact hst a ha
  · rw [if_neg hc] at ha
    dsimp only at ha
    rcases List.mem_append.mp ha with h | h
    · exact hst a h
    · rw [List.mem_singleton.mp h]
      exact hrow

/-- `handleJobFailure` never touches the asset table. -/
theorem assets_handleJobFailure (st : PipelineState) (job : JobRow) (e : String) :
    (handleJobFailure st job e).1.assets = st.assets := by
  unfold handleJobFailure
  dsimp only
  split
  · split <;> rfl
  · rfl

/-- `handleJobFailure` never touches the derivative table. -/
theorem derivatives_handleJobFailure (st : PipelineState) (job : JobRow) (e : String) :
    (handleJobFailure st job e).1.derivatives = st.derivatives := by
  unfold handleJobFailure
  dsimp only
  split
  · split <;> rfl
  · rfl

/-- `CreateAsset` never touches the derivative table. -/
theorem derivatives_createAsset (st : PipelineState) (a : AssetRow) :
    (createAsset st a).1.derivatives = st.derivatives := by
  unfold createAsset
  split <;> rfl

/-- The enqueue entry points never touch the asset table. -/
theorem assets_queueProcessing (st : PipelineState) (k c : String) (u : Nat)
    (cc : Option CropConfig) : (queueProcessing st k c u cc).1.assets = st.assets := by
  unfold queueProcessing
  dsimp only
  split <;> rfl

/-- See `assets_queueProcessing`. -/
theorem assets_queueReprocessing (st : PipelineState) (k c : String) (u : Nat)
    (cc : Option CropConfig) : (queueReprocessing st k c u cc).1.assets = st.assets := by
  unfold queueReprocessing
  dsimp only
  split <;> rfl

/-- Status walk through `afterAssetRecord`: every asset write there is one of
`failed`, `uploading`, `ready`, so any row invariant all status writes
re-establish is preserved. -/
theorem assetInv_afterAssetRecord {Q : AssetRow → Prop}
    (env : WorkerEnv) (st : PipelineState) (job : JobRow)
    (validation : ValidationResult) (data : List Nat) (aid ver : Nat)
    (hst : assetInv Q st)
    (hQ : ∀ (s : ProcessingStatus) (e : String) (a : AssetRow),
      s = .processing ∨ s = .uploading ∨ s = .ready ∨ s = .failed →
      Q (applyAssetStatus s e a)) :
    assetInv Q (afterAssetRecord env st job validation data aid ver).1 := by
  unfold afterAssetRecord
  have hst1 : assetInv Q (updateJob st job.id .processing (some aid) job.attempts "") :=
    assetInv_of_assets_eq (assets_updateJob st job.id .processing (some aid) job.attempts "") hst
  cases hp : ProcessImage (env.vips data) job.category validation.hasAlpha job.cropData with
  | error e =>
      dsimp only
      exact assetInv_updateAssetStatus _ aid .failed e hst1
        (fun a => hQ .failed e a (by simp))
  | ok processed =>
      dsimp only
      have hst2 : assetInv Q (updateAssetStatus
          (updateJob st job.id .processing (some aid) job.attempts "") aid .uploading "") :=
        assetInv_updateAssetStatus _ aid .uploading "" hst1
          (fun a => hQ .uploading "" a (by simp))
      have hassets := uploadAll_outState_assets env (validation.contentHash.take 2)
        validation.contentHash ver aid processed
        (updateAssetStatus (updateJob st job.id .processing (some aid) job.attempts "") aid .uploading "")
      cases hu : uploadAll env (updateAssetStatus
          (updateJob st job.id .processing (some aid) job.attempts "") aid .uploading "")
          (validation.contentHash.take 2) validation.contentHash ver aid processed with
      | error pr =>
          obtain ⟨st3, msg⟩ := pr
          rw [hu] at hassets
          simp only [uploadOutState] at hassets
          exact assetInv_updateAssetStatus _ aid .failed msg
            (assetInv_of_assets_eq hassets hst2)
            (fun a => hQ .failed msg a (by simp))
      | ok pr =>
          obtain ⟨st3, derivs⟩ := pr
          rw [hu] at hassets
          simp only [uploadOutState] at hassets
          have hst3 : assetInv Q st3 := assetInv_of_assets_eq hassets hst2
          have hst4 : assetInv Q (insertDerivativeRows st3 derivs) :=
            assetInv_of_assets_eq (assets_insertDerivativeRows derivs st3) hst3
          have hst5 : assetInv Q (if job.uploadKey ≠ originalKeyFor (validation.contentHash.take 2) validation.contentHash
              then moveBlob (insertDerivativeRows st3 derivs) job.uploadKey
                (originalKeyFor (validation.contentHash.take 2) validation.contentHash)
              else insertDerivativeRows st3 derivs) := by
            split
            · exact assetInv_of_assets_eq (assets_moveBlob _ _ _) hst4
            · exact hst4
          refine assetInv_of_assets_eq (assets_updateJob _ job.id .ready (some aid) job.attempts "")
            (assetInv_updateAssetStatus _ aid .ready "" hst5 (fun a => hQ .ready "" a (by simp)))

/-- Status walk through `continueProcessing` (step 4 of the pipeline). -/
theorem assetInv_continueProcessing {Q : AssetRow → Prop}
    (env : WorkerEnv) (st : PipelineState) (job : JobRow)
    (validation : ValidationResult) (data : List Nat) (aid ver : Nat) (ex : Bool)
    (hst : assetInv Q st)
    (hQ : ∀ (s : ProcessingStatus) (e : String) (a : AssetRow),
      s = .processing ∨ s = .uploading ∨ s = .ready ∨ s = .failed →
      Q (applyAssetStatus s e a))
    (hnew : Q (newAssetRow aid validation job.category job.userID ver)) :
    assetInv Q (continueProcessing env st job validation data aid ver ex).1 := by
  unfold continueProcessing
  cases ex with
  | true =>
      rw [if_pos rfl]
      exact assetInv_afterAssetRecord env _ job validation data aid ver
        (assetInv_updateAssetStatus st aid .processing "" hst
          (fun a => hQ .processing "" a (by simp))) hQ
  | false =>
      rw [if_neg (by simp)]
      dsimp only
      by_cases hc : (createAsset st (newAssetRow aid validation job.category job.userID ver)).2 = true
      · rw [if_pos hc]
        exact assetInv_afterAssetRecord env _ job validation data aid ver
          (assetInv_createAsset st _ hst hnew) hQ
      · rw [if_neg hc]
        exact assetInv_createAsset st _ hst hnew

/-- Status walk through a full sequential `processJob`. -/
theorem assetInv_processJob {Q : AssetRow → Prop}
    (env : WorkerEnv) (st : PipelineState) (job : JobRow)
    (hst : assetInv Q st)
    (hQ : ∀ (s : ProcessingStatus) (e : String) (a : AssetRow),
      s = .processing ∨ s = .uploading ∨ s = .ready ∨ s = .failed →
      Q (applyAssetStatus s e a))
    (hnew : ∀ (i : Nat) (v : ValidationResult) (c : String) (u ver : Nat),
      Q (newAssetRow i v c u ver)) :
    assetInv Q (processJob env (fun s => s) st job).1 := by
  unfold processJob
  dsimp only
  have hst1 : assetInv Q (updateJob st job.id .downloading none job.attempts "") :=
    assetInv_of_assets_eq (assets_updateJob st job.id .downloading none job.attempts "") hst
  cases hb : lookupBlob (updateJob st job.id .downloading none job.attempts "") job.uploadKey with
  | none => exact hst1
  | some data =>
      dsimp only
      cases hv : ValidateImage env.go data job.category with
      | error e => exact hst1
      | ok validation =>
          dsimp only
          cases hd : getAssetByHash (updateJob st job.id .downloading none job.attempts "")
              validation.contentHash with
          | some existing =>
              dsimp only
              by_cases hcase : job.isReprocess = false ∧ existing.status = .ready
              · rw [if_pos hcase]
                exact assetInv_of_assets_eq (assets_deleteBlob _ job.uploadKey)
                  (assetInv_of_assets_eq (assets_updateJob _ job.id .ready (some existing.id) job.attempts "") hst1)
              · rw [if_neg hcase]
                exact assetInv_continueProcessing env _ job validation data existing.id
                  (existing.version + 1) true hst1 hQ (hnew _ _ _ _ _)
          | none =>
              dsimp only
              exact assetInv_continueProcessing env _ job validation data
                (freshID (updateJob st job.id .downloading none job.attempts "")).2 1 false
                (assetInv_of_assets_eq rfl hst1) hQ (hnew _ _ _ _ _)

/-- Status walk through one worker iteration (`processJob` plus the failure
handler). -/
theorem assetInv_runJob {Q : AssetRow → Prop}
    (env : WorkerEnv) (st : PipelineState) (job : JobRow)
    (hst : assetInv Q st)
    (hQ : ∀ (s : ProcessingStatus) (e : String) (a : AssetRow),
      s = .processing ∨ s = .uploading ∨ s = .ready ∨ s = .failed →
      Q (applyAssetStatus s e a))
    (hnew : ∀ (i : Nat) (v : ValidationResult) (c : String) (u ver : Nat),
      Q (newAssetRow i v c u ver)) :
    assetInv Q (runJob env (fun s => s) st job) := by
  unfold runJob
  have hinv := assetInv_processJob env st job hst hQ hnew
  cases hp : processJob env (fun s => s) st job with
  | mk st1 r =>
      rw [hp] at hinv
      cases r with
      | ok u => exact hinv
      | error e => exact assetInv_of_assets_eq (assets_handleJobFailure st1 job e) hinv

/-- Derivative rows appearing after `afterAssetRecord` are either pre-existing
or carry one of the four format ids produced by the Transformer. -/
theorem derivatives_mem_afterAssetRecord
    (env : WorkerEnv) (st : PipelineState) (job : JobRow)
    (validation : ValidationResult) (data : List Nat) (aid ver : Nat)
    (d : DerivativeRow)
    (hd : d ∈ (afterAssetRecord env st job validation data aid ver).1.derivatives) :
    d ∈ st.derivatives ∨ d.format ∈ ["avif", "webp", "jpg", "png"] := by
  unfold afterAssetRecord at hd
  cases hp : ProcessImage (env.vips data) job.category validation.hasAlpha job.cropData with
  | error e =>
      rw [hp] at hd
      dsimp only at hd
      rw [derivatives_updateAssetStatus, derivatives_updateJob] at hd
      exact .inl hd
  | ok processed =>
      rw [hp] at hd
      dsimp only at hd
      have hders := uploadAll_outState_derivatives env (validation.contentHash.take 2)
        validation.contentHash ver aid processed
        (updateAssetStatus (updateJob st job.id .processing (some aid) job.attempts "") aid .uploading "")
      cases hu : uploadAll env (updateAssetStatus
          (updateJob st job.id .processing (some aid) job.attempts "") aid .uploading "")
          (validation.contentHash.take 2) validation.contentHash ver aid processed with
      | error pr =>
          obtain ⟨st3, msg⟩ := pr
          rw [hu] at hders hd
          simp only [uploadOutState] at hders
          dsimp only at hd
          rw [derivatives_updateAssetStatus] at hd
          rw [hders, derivatives_updateAssetStatus, derivatives_updateJob] at hd
          exact .inl hd
      | ok pr =>
          obtain ⟨st3, derivs⟩ := pr
          rw [hu] at hders hd
          simp only [uploadOutState] at hders
          dsimp only at hd
          rw [derivatives_updateJob, derivatives_updateAssetStatus] at hd
          have hd2 : d ∈ (insertDerivativeRows st3 derivs).derivatives := by
            rcases hsplit : decide (job.uploadKey ≠ originalKeyFor (validation.contentHash.take 2) validation.contentHash) with _ | _
            · rw [if_neg (by simpa using hsplit)] at hd
              exact hd
            · rw [if_pos (by simpa using hsplit)] at hd
              rw [derivatives_moveBlob] at hd
              exact hd
          rcases insertDerivativeRows_mem derivs st3 d hd2 with h | h
          · rw [hders, derivatives_updateAssetStatus, derivatives_updateJob] at h
            exact .inl h
          · obtain ⟨p, hp2, hpf⟩ := uploadAll_ok_formats env (validation.contentHash.take 2)
              validation.contentHash ver aid processed _ _ _ hu d h
            rw [hpf]
            exact .inr (ProcessImage_formats (env.vips data) job.category
              validation.hasAlpha job.cropData processed hp p hp2)

/-- Derivative walk through `continueProcessing`. -/
theorem derivatives_mem_continueProcessing
    (env : WorkerEnv) (st : PipelineState) (job : JobRow)
    (validation : ValidationResult) (data : List Nat) (aid ver : Nat) (ex : Bool)
    (d : DerivativeRow)
    (hd : d ∈ (continueProcessing env st job validation data aid ver ex).1.derivatives) :
    d ∈ st.derivatives ∨ d.format ∈ ["avif", "webp", "jpg", "png"] := by
  unfold continueProcessing at hd
  cases ex with
  | true =>
      rw [if_pos rfl] at hd
      rcases derivatives_mem_afterAssetRecord env _ job validation data aid ver d hd with h | h
      · rw [derivatives_updateAssetStatus] at h
        exact .inl h
      · exact .inr h
  | false =>
      rw [if_neg (by simp)] at hd
      dsimp only at hd
      by_cases hc : (createAsset st (newAssetRow aid validation job.category job.userID ver)).2 = true
      · rw [if_pos hc] at hd
        rcases derivatives_mem_afterAssetRecord env _ job validation data aid ver d hd with h | h
        · rw [derivatives_createAsset] at h
          exact .inl h
        · exact .inr h
      · rw [if_neg hc] at hd
        rw [derivatives_createAsset] at hd
        exact .inl hd

/-- Derivative walk through a sequential `processJob`. -/
theorem derivatives_mem_processJob
    (env : WorkerEnv) (st : PipelineState) (job : JobRow) (d : DerivativeRow)
    (hd : d ∈ (processJob env (fun s => s) st job).1.derivatives) :
    d ∈ st.derivatives ∨ d.format ∈ ["avif", "webp", "jpg", "png"] := by
  unfold processJob at hd
  dsimp only at hd
  cases hb : lookupBlob (updateJob st job.id .downloading none job.attempts "") job.uploadKey with
  | none =>
      rw [hb] at hd
      dsimp only at hd
      rw [derivatives_updateJob] at hd
      exact .inl hd
  | some data =>
      rw [hb] at hd
      dsimp only at hd
      cases hv : ValidateImage env.go data job.category with
      | error e =>
          rw [hv] at hd
          dsimp only at hd
          rw [derivatives_updateJob] at hd
          exact .inl hd
      | ok validation =>
          rw [hv] at hd
          dsimp only at hd
          cases hdd : getAssetByHash (updateJob st job.id .downloading none job.attempts "")
              validation.contentHash with
          | some existing =>
              rw [hdd] at hd
              dsimp only at hd
              by_cases hcase : job.isReprocess = false ∧ existing.status = .ready
              · rw [if_pos hcase] at hd
                rw [derivatives_deleteBlob, derivatives_updateJob, derivatives_updateJob] at hd
                exact .inl hd
              · rw [if_neg hcase] at hd
                rcases derivatives_mem_continueProcessing env _ job validation data existing.id
                    (existing.version + 1) true d hd with h | h
                · rw [derivatives_updateJob] at h
                  exact .inl h
                · exact .inr h
          | none =>
              rw [hdd] at hd
              dsimp only at hd
              rcases derivatives_mem_continueProcessing env _ job validation data
                  (freshID (updateJob st job.id .downloading none job.attempts "")).2 1 false d hd with h | h
              · exact .inl h
              · exact .inr h

/-- Derivative walk through one worker iteration. -/
theorem derivatives_mem_runJob
    (env : WorkerEnv) (st : PipelineState) (job : JobRow) (d : DerivativeRow)
    (hd : d ∈ (runJob env (fun s => s) st job).derivatives) :
    d ∈ st.derivatives ∨ d.format ∈ ["avif", "webp", "jpg", "png"] := by
  unfold runJob at hd
  cases hp : processJob env (fun s => s) st job with
  | mk st1 r =>
      rw [hp] at hd
      have hmem := derivatives_mem_processJob env st job d
      rw [hp] at hmem
      cases r with
      | ok u => exact hmem hd
      | error e =>
          rw [derivatives_handleJobFailure] at hd
          exact hmem hd

/-- A successful format search returns a candidate with that format. -/
theorem find?_format_some {cands : List DerivativeRow} {f : String} {d : DerivativeRow}
    (h : cands.find? (fun x => x.format = f) = some d) : d ∈ cands ∧ d.format = f := by
  refine ⟨List.mem_of_find?_eq_some h, ?_⟩
  have h2 := List.find?_some h
  simpa using h2

/-- A failed format search means no candidate has that format. -/
theorem find?_format_none {cands : List DerivativeRow} {f : String}
    (h : cands.find? (fun x => x.format = f) = none) : ∀ d ∈ cands, d.format ≠ f := by
  intro d hd
  have h2 := List.find?_eq_none.mp h d hd
  simpa using h2

theorem formatRank_ge_one {f : String} (h0 : f ≠ "avif") : 1 ≤ formatRank f := by
  unfold formatRank
  rw [if_neg h0]
  split_ifs <;> omega

theorem formatRank_ge_two {f : String} (h0 : f ≠ "avif") (h1 : f ≠ "webp") :
    2 ≤ formatRank f := by
  unfold formatRank
  rw [if_neg h0, if_neg h1]
  split_ifs <;> omega

theorem formatRank_ge_three {f : String} (h0 : f ≠ "avif") (h1 : f ≠ "webp")
    (h2 : f ≠ "jpeg") : 3 ≤ formatRank f := by
  unfold formatRank
  rw [if_neg h0, if_neg h1, if_neg h2]
  split_ifs <;> omega

theorem formatRank_ge_four {f : String} (h0 : f ≠ "avif") (h1 : f ≠ "webp")
    (h2 : f ≠ "jpeg") (h3 : f ≠ "jpg") : 4 ≤ formatRank f := by
  unfold formatRank
  rw [if_neg h0, if_neg h1, if_neg h2, if_neg h3]
  split_ifs <;> omega

theorem formatRank_eq_five {f : String} (h0 : f ≠ "avif") (h1 : f ≠ "webp")
    (h2 : f ≠ "jpeg") (h3 : f ≠ "jpg") (h4 : f ≠ "png") : formatRank f = 5 := by
  unfold formatRank
  rw [if_neg h0, if_neg h1, if_neg h2, if_neg h3, if_neg h4]

/-- The priority scan of `GetDerivativeKey` returns a candidate whose format
rank (in the code's five-format priority list) is minimal. -/
theorem priority_pick_minimal (cands : List DerivativeRow) (d : DerivativeRow)
    (h : formatPriorities.findSome? (fun f => cands.find? fun x => x.format = f) = some d) :
    d ∈ cands ∧ ∀ d2 ∈ cands, formatRank d.format ≤ formatRank d2.format := by
  unfold formatPriorities at h
  simp only [List.findSome?] at h
  cases h0 : cands.find? (fun x => x.format = "avif") with
  | some d0 =>
      rw [h0] at h
      dsimp only at h
      injection h with h
      subst h
      obtain ⟨hm, hf⟩ := find?_format_some h0
      refine ⟨hm, fun d2 _ => ?_⟩
      rw [hf]
      simp [formatRank]
  | none =>
      rw [h0] at h
      dsimp only at h
      cases h1 : cands.find? (fun x => x.format = "webp") with
      | some d1 =>
          rw [h1] at h
          dsimp only at h
          injection h with h
          subst h
          obtain ⟨hm, hf⟩ := find?_format_some h1
          refine ⟨hm, fun d2 hd2 => ?_⟩
          rw [hf]
          have := formatRank_ge_one (find?_format_none h0 d2 hd2)
          simpa [formatRank] using this
      | none =>
          rw [h1] at h
          dsimp only at h
          cases h2 : cands.find? (fun x => x.format = "jpeg") with
          | some d2 =>
              rw [h2] at h
              dsimp only at h
              injection h with h
              subst h
              obtain ⟨hm, hf⟩ := find?_format_some h2
              refine ⟨hm, fun d3 hd3 => ?_⟩
              rw [hf]
              have := formatRank_ge_two (find?_format_none h0 d3 hd3)
                (find?_format_none h1 d3 hd3)
              simpa [formatRank] using this
          | none =>
              rw [h2] at h
              dsimp only at h
              cases h3 : cands.find? (fun x => x.format = "jpg") with
              | some d3 =>
                  rw [h3] at h
                  dsimp only at h
                  injection h with h
                  subst h
                  obtain ⟨hm, hf⟩ := find?_format_some h3
                  refine ⟨hm, fun d4 hd4 => ?_⟩
                  rw [hf]
                  have := formatRank_ge_three (find?_format_none h0 d4 hd4)
                    (find?_format_none h1 d4 hd4) (find?_format_none h2 d4 hd4)
                  simpa [formatRank] using this
              | none =>
                  rw [h3] at h
                  dsimp only at h
                  cases h4 : cands.find? (fun x => x.format = "png") with
                  | some d4 =>
                      rw [h4] at h
                      dsimp only at h
                      injection h with h
                      subst h
                      obtain ⟨hm, hf⟩ := find?_format_some h4
                      refine ⟨hm, fun d5 hd5 => ?_⟩
                      rw [hf]
                      have := formatRank_ge_four (find?_format_none h0 d5 hd5)
                        (find?_format_none h1 d5 hd5) (find?_format_none h2 d5 hd5)
                        (find?_format_none h3 d5 hd5)
                      simpa [formatRank] using this
                  | none =>
                      rw [h4] at h
                      dsimp only at h
                      cases h
  
/-- When the priority scan finds nothing, every candidate format is outside
the priority list. -/
theorem priority_pick_none (cands : List DerivativeRow)
    (h : formatPriorities.findSome? (fun f => cands.find? fun x => x.format = f) = none) :
    ∀ d2 ∈ cands, formatRank d2.format = 5 := by
  intro d2 hd2
  unfold formatPriorities at h
  simp only [List.findSome?] at h
  cases h0 : cands.find? (fun x => x.format = "avif") with
  | some d0 => rw [h0] at h; dsimp only at h; cases h
  | none =>
      rw [h0] at h
      dsimp only at h
      cases h1 : cands.find? (fun x => x.format = "webp") with
      | some d1 => rw [h1] at h; dsimp only at h; cases h
      | none =>
          rw [h1] at h
          dsimp only at h
          cases h2 : cands.find? (fun x => x.format = "jpeg") with
          | some dx => rw [h2] at h; dsimp only at h; cases h
          | none =>
              rw [h2] at h
              dsimp only at h
              cases h3 : cands.find? (fun x => x.format = "jpg") with
              | some dx => rw [h3] at h; dsimp only at h; cases h
              | none =>
                  rw [h3] at h
                  dsimp only at h
                  cases h4 : cands.find? (fun x => x.format = "png") with
                  | some dx => rw [h4] at h; dsimp only at h; cases h
                  | none =>
                      exact formatRank_eq_five (find?_format_none h0 d2 hd2)
                        (find?_format_none h1 d2 hd2) (find?_format_none h2 d2 hd2)
                        (find?_format_none h3 d2 hd2) (find?_format_none h4 d2 hd2)

/-- The failure handler's effect on the failed job's row: attempts bumped,
asset link NULLed, error recorded, status `pending` below three attempts and
`failed` from the third on. -/
theorem getJob_handleJobFailure (st : PipelineState) (job : JobRow) (e : String) :
    getJob (handleJobFailure st job e).1 job.id =
      (getJob st job.id).map (applyJobUpdate
        (if job.attempts + 1 < 3 then .pending else .failed) none (job.attempts + 1) e) := by
  unfold handleJobFailure
  dsimp only
  by_cases hatt : job.attempts + 1 < 3
  · rw [if_pos hatt, if_pos hatt]
    split
    · exact getJob_updateJob st job.id .pending none (job.attempts + 1) e
    · exact getJob_updateJob st job.id .pending none (job.attempts + 1) e
  · rw [if_neg hatt, if_neg hatt]
    exact getJob_updateJob st job.id .failed none (job.attempts + 1) e

/-! ### Claims -/

/-- C1, counterexample: a job whose bytes fail validation (empty buffer, no
detectable format) at `attempts = 0` is NOT terminally failed — `worker`
routes the error through `handleJobFailure`, which sets the job back to
`pending` and re-enqueues it, contradicting "the job transitions to failed
without being set back to pending or re-enqueued, regardless of its attempts
count". -/
theorem c1_validation_failure_retried_counterexample :
    (processJob demoEnv (fun s => s) badState badJob).2 =
      .error "validation failed: unable to detect image format" ∧
    (getJob (runJob demoEnv (fun s => s) badState badJob) 2).map JobRow.status =
      some .pending ∧
    (runJob demoEnv (fun s => s) badState badJob).queue.map JobRow.id = [2] := by
  exact ⟨rfl, rfl, rfl⟩

/-- C1, amended: a validation failure is handled by the generic retry policy
of `handleJobFailure` — the attempt errors with `validation failed: …`, and
the job is set back to `pending` (and re-enqueued) while `attempts + 1 < 3`,
becoming `failed` only from the third attempt on. -/
theorem c1_validation_failure_retry_policy (env : WorkerEnv) (st : PipelineState)
    (job j0 : JobRow) (data : List Nat) (e : String)
    (hrow : getJob st job.id = some j0)
    (hblob : lookupBlob st job.uploadKey = some data)
    (hval : ValidateImage env.go data job.category = .error e) :
    (processJob env (fun s => s) st job).2 = .error ("validation failed: " ++ e) ∧
    (getJob (runJob env (fun s => s) st job) job.id).map JobRow.status =
      some (if job.attempts + 1 < 3 then ProcessingStatus.pending else ProcessingStatus.failed) := by
  have hpj : processJob env (fun s => s) st job =
      (updateJob st job.id .downloading none job.attempts "",
        .error ("validation failed: " ++ e)) := by
    unfold processJob
    dsimp only
    rw [lookupBlob_updateJob, hblob]
    dsimp only
    rw [hval]
  constructor
  · rw [hpj]
  · unfold runJob
    rw [hpj]
    dsimp only
    rw [getJob_handleJobFailure, getJob_updateJob, hrow]
    simp [applyJobUpdate]

/-- Witness for `c1_validation_failure_retry_policy` at the concrete bad
upload (`badState`, `badJob`, empty bytes). -/
theorem c1_validation_failure_retry_policy_witness :
    (processJob demoEnv (fun s => s) badState badJob).2 =
      .error ("validation failed: " ++ "unable to detect image format") ∧
    (getJob (runJob demoEnv (fun s => s) badState badJob) badJob.id).map JobRow.status =
      some (if badJob.attempts + 1 < 3 then ProcessingStatus.pending else ProcessingStatus.failed) :=
  c1_validation_failure_retry_policy demoEnv badState badJob badJob []
    "unable to detect image format" rfl rfl rfl

/-- C2, counterexample: when every rendition fails (`vipsAllFail`),
`ProcessImage` returns `ok []` — not a `ProcessingFailed` error — and the
worker then marks the asset and the job `ready` with zero derivatives, not
`failed`. -/
theorem c2_all_renditions_fail_counterexample :
    ProcessImage vipsAllFail "general" false none = .ok [] ∧
    (runJob envAllFail (fun s => s) demoState demoJob).assets.map AssetRow.status =
      [.ready] ∧
    (runJob envAllFail (fun s => s) demoState demoJob).derivatives = [] ∧
    (getJob (runJob envAllFail (fun s => s) demoState demoJob) 1).map JobRow.status =
      some .ready := by
  exact ⟨rfl, rfl, rfl, rfl⟩

/-- When every rendition of the ladder fails, the fold accumulates nothing. -/
theorem foldl_all_error (v : VipsEnv) (ha : Bool) (cc : Option CropConfig) :
    ∀ (l : List RenditionConfig) (acc : List ProcessedImage),
      (∀ r ∈ l, isErr (processRendition v r ha cc) = true) →
      l.foldl (fun acc r => match processRendition v r ha cc with
        | .ok ps => acc ++ ps
        | .error _ => acc) acc = acc := by
  intro l
  induction l with
  | nil => intro acc _; rfl
  | cons r rest ih =>
      intro acc h
      simp only [List.foldl_cons]
      have hr0 := h r (List.mem_cons_self _ _)
      cases hr : processRendition v r ha cc with
      | ok ps => rw [hr] at hr0; simp [isErr] at hr0
      | error e =>
          dsimp only
          exact ih acc fun x hx => h x (List.mem_cons_of_mem _ hx)

/-- C2, amended: `ProcessImage` errors only when the initial source load
fails; when the source loads but every rendition of the category's ladder
fails, it succeeds with an empty result (each per-rendition error is
swallowed by the errgroup callback), and the worker then proceeds to mark the
asset ready (see the counterexample). -/
theorem c2_processimage_empty_on_all_failures (v : VipsEnv) (cat : String)
    (ha : Bool) (cc : Option CropConfig) (w h : Nat)
    (hload : v.loadDims = some (w, h))
    (hfail : ∀ r ∈ GetRenditionsForCategory cat, isErr (processRendition v r ha cc) = true) :
    ProcessImage v cat ha cc = .ok [] := by
  unfold ProcessImage
  rw [hload]
  dsimp only
  rw [foldl_all_error v ha cc _ [] fun r hr => hfail r (List.mem_of_mem_filter hr)]

/-- Witness for `c2_processimage_empty_on_all_failures` at `vipsAllFail`. -/
theorem c2_processimage_empty_on_all_failures_witness :
    ProcessImage vipsAllFail "general" false none = .ok [] :=
  c2_processimage_empty_on_all_failures vipsAllFail "general" false none 400 300
    rfl (by decide)

/-- C3, counterexample: a 10×10 source in category `general` is smaller than
every rendition target, so the whole ladder is skipped; the worker still
marks the asset `ready` (with `processed_at` set) while zero derivative rows
exist — refuting "status ready implies at least one derivative row exists". -/
theorem c3_ready_without_derivatives_counterexample :
    (getAssetByHash (runJob envTiny (fun s => s) demoState demoJob) demoHash).map
      (fun a => (a.status, a.processedAt)) = some (.ready, true) ∧
    (runJob envTiny (fun s => s) demoState demoJob).derivatives = [] := by
  exact ⟨rfl, rfl⟩

/-- C3, amended: the `processed_at` half of the invariant does hold — every
operation of the pipeline (a worker iteration and both enqueue entry points)
preserves "status ready implies processed_at is set", because
`UpdateAssetStatus` sets `processed_at` exactly when writing `ready` or
`failed`; the at-least-one-derivative half fails (see counterexample). -/
theorem c3_ready_implies_processed_at (env : WorkerEnv) (st : PipelineState)
    (job : JobRow) (k c : String) (u : Nat) (cc : Option CropConfig)
    (hst : assetInv (fun a => a.status = .ready → a.processedAt = true) st) :
    assetInv (fun a => a.status = .ready → a.processedAt = true)
      (runJob env (fun s => s) st job) ∧
    assetInv (fun a => a.status = .ready → a.processedAt = true)
      (queueProcessing st k c u cc).1 ∧
    assetInv (fun a => a.status = .ready → a.processedAt = true)
      (queueReprocessing st k c u cc).1 := by
  refine ⟨?_, ?_, ?_⟩
  · refine assetInv_runJob env st job hst (fun s e a _ => ?_) (fun i v cat uid ver => ?_)
    · intro hs
      have hs2 : s = .ready := hs
      simp [applyAssetStatus, hs2]
    · intro hcontra
      simp [newAssetRow] at hcontra
  · exact assetInv_of_assets_eq (assets_queueProcessing st k c u cc) hst
  · exact assetInv_of_assets_eq (assets_queueReprocessing st k c u cc) hst

/-- Witness for `c3_ready_implies_processed_at` at the empty-table state. -/
theorem c3_ready_implies_processed_at_witness :
    assetInv (fun a => a.status = .ready → a.processedAt = true)
      (runJob demoEnv (fun s => s) demoState demoJob) ∧
    assetInv (fun a => a.status = .ready → a.processedAt = true)
      (queueProcessing demoState "uploads/tmp/u7/general/k9.jpg" "general" 7 none).1 ∧
    assetInv (fun a => a.status = .ready → a.processedAt = true)
      (queueReprocessing demoState "originals/ab/x/original" "general" 7 none).1 :=
  c3_ready_implies_processed_at demoEnv demoState demoJob
    "uploads/tmp/u7/general/k9.jpg" "general" 7 none
    (by intro a ha; simp [demoState] at ha)

/-- C4 (code bug): a completed reprocess job for a ready version-1 asset
leaves the persisted `version` at 1 — the source computes `existing.Version + 1`
but only calls `UpdateAssetStatus`, remarking "Ideally we update Version
too." — while the fresh derivative objects ARE written under the `v2/` path
segment, exactly as the claim's second half says. -/
theorem c4_reprocess_version_not_persisted :
    (getAssetByHash (runJob demoEnv (fun s => s) reprocState reprocJob) demoHash).map
      AssetRow.version = some 1 ∧
    lookupBlob (runJob demoEnv (fun s => s) reprocState reprocJob)
      ("derivatives/ab/" ++ demoHash ++ "/v2/general_320.webp") = some [1, 2, 3] ∧
    lookupBlob (runJob demoEnv (fun s => s) reprocState reprocJob)
      ("derivatives/ab/" ++ demoHash ++ "/v2/general_320.avif") = some [1, 2, 3] ∧
    (getJob (runJob demoEnv (fun s => s) reprocState reprocJob) 3).map JobRow.status =
      some .ready := by
  exact ⟨rfl, rfl, rfl, rfl⟩

/-- C5: dedup short-circuit.  When the downloaded bytes validate, their hash
already has an asset row in `ready` state, and the job is not a reprocess,
`processJob` succeeds immediately: the job row is linked to the existing
asset and marked `ready`, the staging upload is deleted, and neither the
asset table nor the derivative table changes — so at most one asset row for
that content hash keeps holding. -/
theorem c5_dedup_short_circuit (env : WorkerEnv) (st : PipelineState)
    (job j0 : JobRow) (data : List Nat) (validation : ValidationResult) (a : AssetRow)
    (hrow : getJob st job.id = some j0)
    (hblob : lookupBlob st job.uploadKey = some data)
    (hval : ValidateImage env.go data job.category = .ok validation)
    (hrep : job.isReprocess = false)
    (hhash : getAssetByHash st validation.contentHash = some a)
    (hready : a.status = .ready)
    (hone : (st.assets.filter fun r => r.contentHash = validation.contentHash).length ≤ 1) :
    (processJob env (fun s => s) st job).2 = .ok () ∧
    (processJob env (fun s => s) st job).1.assets = st.assets ∧
    (processJob env (fun s => s) st job).1.derivatives = st.derivatives ∧
    getJob (processJob env (fun s => s) st job).1 job.id =
      some (applyJobUpdate .ready (some a.id) job.attempts "" j0) ∧
    lookupBlob (processJob env (fun s => s) st job).1 job.uploadKey = none ∧
    ((processJob env (fun s => s) st job).1.assets.filter
      fun r => r.contentHash = validation.contentHash).length ≤ 1 := by
  have hpj : processJob env (fun s => s) st job =
      (deleteBlob (updateJob (updateJob st job.id .downloading none job.attempts "")
        job.id .ready (some a.id) job.attempts "") job.uploadKey, .ok ()) := by
    unfold processJob
    dsimp only
    rw [lookupBlob_updateJob, hblob]
    dsimp only
    rw [hval]
    dsimp only
    rw [getAssetByHash_updateJob, hhash]
    dsimp only
    rw [if_pos ⟨hrep, hready⟩]
  rw [hpj]
  refine ⟨rfl, rfl, rfl, ?_, lookupBlob_deleteBlob _ _, by simpa using hone⟩
  rw [getJob_deleteBlob, getJob_updateJob, getJob_updateJob, hrow]
  rfl

/-- Witness for `c5_dedup_short_circuit`: a second upload of the same bytes
(`dupJob`) while `v1Asset` is ready. -/
theorem c5_dedup_short_circuit_witness :
    (processJob demoEnv (fun s => s) dupState dupJob).2 = .ok () ∧
    (processJob demoEnv (fun s => s) dupState dupJob).1.assets = dupState.assets ∧
    (processJob demoEnv (fun s => s) dupState dupJob).1.derivatives = dupState.derivatives ∧
    getJob (processJob demoEnv (fun s => s) dupState dupJob).1 dupJob.id =
      some (applyJobUpdate .ready (some v1Asset.id) dupJob.attempts "" dupJob) ∧
    lookupBlob (processJob demoEnv (fun s => s) dupState dupJob).1 dupJob.uploadKey = none ∧
    ((processJob demoEnv (fun s => s) dupState dupJob).1.assets.filter
      fun r => r.contentHash = demoValidation.contentHash).length ≤ 1 :=
  c5_dedup_short_circuit demoEnv dupState dupJob dupJob demoData demoValidation v1Asset
    rfl rfl rfl rfl rfl rfl (by decide)

/-- C6, counterexample: when a concurrent worker inserts the same content
hash between the dedup lookup and the asset insert (`raceMid`), the
`CreateAsset` conflict is NOT recovered inline — `processJob` returns the
error and the attempt fails (the job goes back to `pending`, unlinked),
contradicting "the worker recovers by re-reading the asset by hash and
proceeding as if the dedup lookup had matched, rather than failing the
job". -/
theorem c6_conflict_not_recovered_counterexample :
    (processJob demoEnv raceMid demoState demoJob).2 =
      .error "failed to create asset record: create asset: conflict" ∧
    (getJob (runJob demoEnv raceMid demoState demoJob) 1).map
      (fun j => (j.status, j.assetID)) = some (.pending, none) := by
  exact ⟨rfl, rfl⟩

/-- C6, amended: the conflict is recovered only through the generic retry
path — `handleJobFailure` re-enqueues the job as `pending`, and the retried
attempt's dedup lookup finds the concurrently created asset and completes
the job against it (one asset row for the hash, job `ready` and linked). -/
theorem c6_conflict_recovered_on_retry :
    (processJob demoEnv (fun s => s) (runJob demoEnv raceMid demoState demoJob)
      demoJobRetry).2 = .ok () ∧
    (getJob (processJob demoEnv (fun s => s) (runJob demoEnv raceMid demoState demoJob)
      demoJobRetry).1 1).map (fun j => (j.status, j.assetID)) = some (.ready, some 99) ∧
    ((processJob demoEnv (fun s => s) (runJob demoEnv raceMid demoState demoJob)
      demoJobRetry).1.assets.filter fun a => a.contentHash = demoHash).length = 1 := by
  exact ⟨rfl, rfl, rfl⟩

/-- C7: any input that is oversize, or whose decoded header reports a width
or height above 6000 or a pixel count above 64·2²⁰, is rejected by
`ValidateImage`; since validation errors make `processJob` return before the
Transformer is consulted, no derivative row and no blob is produced for such
an input.  (For HEIC/AVIF inputs whose header Go cannot decode, the source
records the dimensions as 0, so the dimension clauses quantify over the
decoded header.) -/
theorem c7_validation_rejects_before_transformer (env : WorkerEnv)
    (st : PipelineState) (job : JobRow) (data : List Nat) (w h : Nat)
    (hblob : lookupBlob st job.uploadKey = some data)
    (hbig : data.length > 15 * 1024 * 1024 ∨
      (env.go.decodeConfig data = some (w, h) ∧
        (w > 6000 ∨ h > 6000 ∨ w * h > 64 * 1024 * 1024))) :
    isErr (ValidateImage env.go data job.category) = true ∧
    (processJob env (fun s => s) st job).1.derivatives = st.derivatives ∧
    (processJob env (fun s => s) st job).1.blobs = st.blobs ∧
    (processJob env (fun s => s) st job).1.assets = st.assets := by
  have hverr : isErr (ValidateImage env.go data job.category) = true := by
    unfold ValidateImage
    dsimp only
    by_cases hsz : data.length > (GetCategoryLimits job.category).maxBytes
    · rw [if_pos hsz]
      rfl
    · rw [if_neg hsz]
      have hdims : env.go.decodeConfig data = some (w, h) ∧
          (w > 6000 ∨ h > 6000 ∨ w * h > 64 * 1024 * 1024) := by
        rcases hbig with hb | hb
        · exact absurd hb (by simpa [GetCategoryLimits] using hsz)
        · exact hb
      obtain ⟨hdc, hwh⟩ := hdims
      by_cases hfmt : DetectFormat data = ""
      · rw [if_pos hfmt]
        rfl
      · rw [if_neg hfmt]
        by_cases hal : (!AllowedFormats (DetectFormat data)) = true
        · rw [if_pos hal]
          rfl
        · rw [if_neg hal]
          rw [hdc]
          dsimp only
          unfold finishValidation
          dsimp only [GetCategoryLimits]
          by_cases hd1 : (decide (w > 6000) || decide (h > 6000)) = true
          · rw [if_pos hd1]
            rfl
          · rw [if_neg hd1]
            have hpx : w * h > 64 * 1024 * 1024 := by
              simp only [Bool.or_eq_true, decide_eq_true_eq, not_or] at hd1
              rcases hwh with hw | hh | hp
              · omega
              · omega
              · exact hp
            rw [if_pos (by simpa using hpx)]
            rfl
  have he : ∃ e, ValidateImage env.go data job.category = .error e := by
    cases hv : ValidateImage env.go data job.category with
    | error e => exact ⟨e, rfl⟩
    | ok v => rw [hv] at hverr; simp [isErr] at hverr
  obtain ⟨e, hv⟩ := he
  have hpj : processJob env (fun s => s) st job =
      (updateJob st job.id .downloading none job.attempts "",
        .error ("validation failed: " ++ e)) := by
    unfold processJob
    dsimp only
    rw [lookupBlob_updateJob, hblob]
    dsimp only
    rw [hv]
  refine ⟨hverr, ?_, ?_, ?_⟩ <;> (rw [hpj]; rfl)

/-- Witness for `c7_validation_rejects_before_transformer` at a decoder
reporting 7000×100. -/
theorem c7_validation_rejects_before_transformer_witness :
    isErr (ValidateImage wideEnv.go demoData demoJob.category) = true ∧
    (processJob wideEnv (fun s => s) wideState demoJob).1.derivatives =
      wideState.derivatives ∧
    (processJob wideEnv (fun s => s) wideState demoJob).1.blobs = wideState.blobs ∧
    (processJob wideEnv (fun s => s) wideState demoJob).1.assets = wideState.assets :=
  c7_validation_rejects_before_transformer wideEnv wideState demoJob demoData 7000 100
    rfl (Or.inr ⟨rfl, Or.inl (by decide)⟩)

/-- C8, counterexample: the non-alpha format set is `{avif, webp, jpg}` —
the identifier is literally `"jpg"`, not `"jpeg"`, and that is also the
format the pipeline persists on derivative rows, so the persisted `format`
field is NOT always in `{avif, webp, jpeg, png}`. -/
theorem c8_jpg_not_jpeg_counterexample :
    GetFormatsForRendition false false = ["avif", "webp", "jpg"] ∧
    "jpg" ∉ ["avif", "webp", "jpeg", "png"] ∧
    (runJob demoEnv (fun s => s) demoState demoJob).derivatives.map
      DerivativeRow.format = ["avif", "webp", "jpg"] := by
  exact ⟨rfl, by decide, rfl⟩

/-- C8, amended: the format identifiers are drawn from
`{avif, webp, jpg, png}`: `webp` always, `png` exactly with alpha, `jpg`
exactly without alpha, `avif` exactly when `skipAVIF` is unset; and every
derivative row a sequential worker iteration adds carries one of those four
identifiers. -/
theorem c8_formats_amended (env : WorkerEnv) (st : PipelineState) (job : JobRow)
    (d : DerivativeRow)
    (hd : d ∈ (runJob env (fun s => s) st job).derivatives) :
    (∀ ha s : Bool, "webp" ∈ GetFormatsForRendition ha s) ∧
    (∀ ha s : Bool, ("png" ∈ GetFormatsForRendition ha s ↔ ha = true)) ∧
    (∀ ha s : Bool, ("jpg" ∈ GetFormatsForRendition ha s ↔ ha = false)) ∧
    (∀ ha s : Bool, ("avif" ∈ GetFormatsForRendition ha s ↔ s = false)) ∧
    (∀ (ha s : Bool), ∀ f ∈ GetFormatsForRendition ha s,
      f ∈ ["avif", "webp", "jpg", "png"]) ∧
    (d ∈ st.derivatives ∨ d.format ∈ ["avif", "webp", "jpg", "png"]) := by
  exact ⟨by decide, by decide, by decide, by decide, by decide,
    derivatives_mem_runJob env st job d hd⟩

/-- Witness for `c8_formats_amended` at the happy-path run, whose first
persisted derivative is the `avif` row. -/
theorem c8_formats_amended_witness :
    (∀ ha s : Bool, "webp" ∈ GetFormatsForRendition ha s) ∧
    (∀ ha s : Bool, ("png" ∈ GetFormatsForRendition ha s ↔ ha = true)) ∧
    (∀ ha s : Bool, ("jpg" ∈ GetFormatsForRendition ha s ↔ ha = false)) ∧
    (∀ ha s : Bool, ("avif" ∈ GetFormatsForRendition ha s ↔ s = false)) ∧
    (∀ (ha s : Bool), ∀ f ∈ GetFormatsForRendition ha s,
      f ∈ ["avif", "webp", "jpg", "png"]) ∧
    (avifRow ∈ demoState.derivatives ∨ avifRow.format ∈ ["avif", "webp", "jpg", "png"]) :=
  c8_formats_amended demoEnv demoState demoJob avifRow (by decide)

/-- C9, counterexample: on a ready asset whose candidates for a rendition
hold the formats `png` and `jpg`, the code returns the `jpg` derivative
(its priority list is `avif, webp, jpeg, jpg, png`), while the claim's
priority `avif > webp > jpeg > png` picks the `png` one. -/
theorem c9_priority_includes_jpg_counterexample :
    GetDerivativeKey mixedState demoHash "general_320" "" = .ok ("K2", "jpg") ∧
    (specPriorityPick (candidatesOf (derivativesOf mixedState 50) "general_320")).map
      DerivativeRow.format = some "png" := by
  exact ⟨rfl, rfl⟩

/-- C9, amended: `GetDerivativeKey` fails with `asset not ready` whenever the
(found) asset's status is not ready; on a ready asset and a non-`"original"`
rendition with candidate list `c :: cs`, a requested `preferredFormat` that
matches some candidate is returned, and with no preferred format the result
is a candidate of minimal rank in the code's priority order
`avif > webp > jpeg > jpg > png` (first candidate when nothing is ranked). -/
theorem c9_get_derivative_key_amended (st : PipelineState) (hsh r pf : String)
    (a : AssetRow) (c : DerivativeRow) (cs : List DerivativeRow)
    (ha : getAssetByHash st hsh = some a)
    (hr : r ≠ "original")
    (hcand : candidatesOf (derivativesOf st a.id) r = c :: cs) :
    (a.status ≠ .ready → GetDerivativeKey st hsh r pf = .error "asset not ready") ∧
    (a.status = .ready →
      (∀ d, pf ≠ "" → (c :: cs).find? (fun x => x.format = pf) = some d →
        GetDerivativeKey st hsh r pf = .ok (d.storageKey, d.format) ∧
        d.format = pf ∧ d ∈ c :: cs) ∧
      (pf = "" → ∃ d, d ∈ c :: cs ∧
        GetDerivativeKey st hsh r pf = .ok (d.storageKey, d.format) ∧
        ∀ d2 ∈ c :: cs, formatRank d.format ≤ formatRank d2.format)) := by
  constructor
  · intro hns
    unfold GetDerivativeKey
    rw [ha]
    dsimp only
    rw [if_pos hns]
  · intro hready
    have hkey : GetDerivativeKey st hsh r pf =
        (match (if pf ≠ "" then (c :: cs).find? (fun d => d.format = pf) else none) with
          | some d => .ok (d.storageKey, d.format)
          | none =>
              match formatPriorities.findSome? (fun f => (c :: cs).find? fun d => d.format = f) with
              | some d => .ok (d.storageKey, d.format)
              | none => .ok (c.storageKey, c.format)) := by
      unfold GetDerivativeKey
      rw [ha]
      dsimp only
      rw [if_neg (fun hh => hh hready), if_neg hr, hcand]
    constructor
    · intro d hpf hfind
      obtain ⟨hmem, hfmt⟩ := find?_format_some hfind
      refine ⟨?_, hfmt, hmem⟩
      rw [hkey, if_pos hpf, hfind]
    · intro hpf
      cases hfs : formatPriorities.findSome? (fun f => (c :: cs).find? fun d => d.format = f) with
      | some d =>
          obtain ⟨hmem, hmin⟩ := priority_pick_minimal (c :: cs) d hfs
          refine ⟨d, hmem, ?_, hmin⟩
          rw [hkey, if_neg (by simp [hpf]), hfs]
      | none =>
          have hall := priority_pick_none (c :: cs) hfs
          refine ⟨c, List.mem_cons_self _ _, ?_, ?_⟩
          · rw [hkey, if_neg (by simp [hpf]), hfs]
          · intro d2 hd2
            rw [hall c (List.mem_cons_self _ _), hall d2 hd2]

/-- Witness for `c9_get_derivative_key_amended` on the ready asset with
`avif` and `webp` derivatives and no preferred format. -/
theorem c9_get_derivative_key_amended_witness :
    (v1Asset.status ≠ .ready →
      GetDerivativeKey richState demoHash "general_320" "" = .error "asset not ready") ∧
    (v1Asset.status = .ready →
      (∀ d, "" ≠ "" → (avifDeriv :: [webpDeriv]).find? (fun x => x.format = "") = some d →
        GetDerivativeKey richState demoHash "general_320" "" = .ok (d.storageKey, d.format) ∧
        d.format = "" ∧ d ∈ avifDeriv :: [webpDeriv]) ∧
      ("" = "" → ∃ d, d ∈ avifDeriv :: [webpDeriv] ∧
        GetDerivativeKey richState demoHash "general_320" "" = .ok (d.storageKey, d.format) ∧
        ∀ d2 ∈ avifDeriv :: [webpDeriv], formatRank d.format ≤ formatRank d2.format)) :=
  c9_get_derivative_key_amended richState demoHash "general_320" "" v1Asset
    avifDeriv [webpDeriv] rfl (by decide) rfl

/-- C10: every asset row the pipeline creates starts at `processing`
(`newAssetRow` is the literal `processJob` builds), and all three pipeline
operations preserve "every asset row's status is `processing`, `uploading`,
`ready` or `failed`" — so `pending` and `downloading`, although members of
the shared enum, never appear on an asset row. -/
theorem c10_asset_statuses (env : WorkerEnv) (st : PipelineState) (job : JobRow)
    (k c : String) (u : Nat) (cc : Option CropConfig)
    (hst : assetInv (fun a => a.status = .processing ∨ a.status = .uploading ∨
      a.status = .ready ∨ a.status = .failed) st) :
    (∀ (i : Nat) (v : ValidationResult) (cat : String) (uid ver : Nat),
      (newAssetRow i v cat uid ver).status = .processing) ∧
    assetInv (fun a => a.status = .processing ∨ a.status = .uploading ∨
      a.status = .ready ∨ a.status = .failed) (runJob env (fun s => s) st job) ∧
    assetInv (fun a => a.status = .processing ∨ a.status = .uploading ∨
      a.status = .ready ∨ a.status = .failed) (queueProcessing st k c u cc).1 ∧
    assetInv (fun a => a.status = .processing ∨ a.status = .uploading ∨
      a.status = .ready ∨ a.status = .failed) (queueReprocessing st k c u cc).1 := by
  refine ⟨fun i v cat uid ver => rfl, ?_, ?_, ?_⟩
  · refine assetInv_runJob env st job hst (fun s e a hdis => ?_)
      (fun i v cat uid ver => Or.inl rfl)
    simpa [applyAssetStatus] using hdis
  · exact assetInv_of_assets_eq (assets_queueProcessing st k c u cc) hst
  · exact assetInv_of_assets_eq (assets_queueReprocessing st k c u cc) hst

/-- Witness for `c10_asset_statuses` at the empty-table state. -/
theorem c10_asset_statuses_witness :
    (∀ (i : Nat) (v : ValidationResult) (cat : String) (uid ver : Nat),
      (newAssetRow i v cat uid ver).status = .processing) ∧
    assetInv (fun a => a.status = .processing ∨ a.status = .uploading ∨
      a.status = .ready ∨ a.status = .failed)
      (runJob demoEnv (fun s => s) demoState demoJob) ∧
    assetInv (fun a => a.status = .processing ∨ a.status = .uploading ∨
      a.status = .ready ∨ a.status = .failed)
      (queueProcessing demoState "uploads/tmp/u7/general/k9.jpg" "general" 7 none).1 ∧
    assetInv (fun a => a.status = .processing ∨ a.status = .uploading ∨
      a.status = .ready ∨ a.status = .failed)
      (queueReprocessing demoState "originals/ab/x/original" "general" 7 none).1 :=
  c10_asset_statuses demoEnv demoState demoJob
    "uploads/tmp/u7/general/k9.jpg" "general" 7 none
    (by intro a ha; simp [demoState] at ha)

end ImagePipeline
